import Mathlib

/-!
Shallow embedding of the levine-marketing-dashboard analysis scripts.

Sources embedded here:
* src/Analysis/GPT/ads_strategy_report_GPT5High.py  (namespace ASR)
* src/Analysis/multi_timeframe_analysis.py          (namespace MTA)
* src/Analysis/ppc_campaign_analysis.py             (namespace PPC)
* src/Analysis/google_ads_keyword_analysis.py       (namespace GKA)
* src/app.py                                        (namespace App)

Modelling conventions, used throughout:
* Python floats are modelled as exact rationals; pandas NaN is modelled
  as Option.none where a value can be missing.
* pd.Timestamp is modelled by the two observers the scripts use: a day
  ordinal (for ordering and for differences in days) and the calendar
  month.  The library parsers pd.to_datetime and pd.to_numeric are kept
  abstract as function parameters of the loaders.
* Python dicts are modelled as association lists whose key lists are
  assumed duplicate-free where a theorem needs it (dict keys are unique).
* A raised exception flowing into a try/except block is modelled by an
  Except.error argument.
-/

/-- Model of pd.Timestamp: day ordinal plus calendar month, the only two
observers the analysis scripts apply to a parsed date. -/
structure Timestamp where
  days : Int
  month : Nat
deriving DecidableEq, Repr

/-- Arithmetic mean of a list of rationals, as pandas Series.mean on a
list of present values; the empty case yields 0/0 = 0 and is always
guarded at use sites. -/
def qmean (v : List ℚ) : ℚ := v.sum / v.length

/-- Mean of a column that may contain NaN entries: pandas mean skips NaN
and returns NaN (none) when no value remains. -/
def colMean (v : List (Option ℚ)) : Option ℚ :=
  let xs := v.filterMap id
  if xs.isEmpty then none else some (qmean xs)

namespace ASR

/-- One parsed CSV data row of a multiTimeline file after the header
rows: the Week cell and the value cell, both raw strings. -/
structure RawRow where
  week : String
  value : String

/-- One row of the timeline frame produced by load_timeline. -/
structure TRow where
  theme : String
  date : Timestamp
  value : ℚ
deriving DecidableEq

/-- Row order used by sort_values("date"). -/
def dateLe (r s : TRow) : Prop := r.date.days ≤ s.date.days

instance : DecidableRel dateLe := fun _ _ => inferInstanceAs (Decidable (_ ≤ _))

instance : IsTotal TRow dateLe := ⟨fun r s => Int.le_total r.date.days s.date.days⟩

instance : IsTrans TRow dateLe := ⟨fun _ _ _ h h' => le_trans h h'⟩

/-- load_timeline of ads_strategy_report_GPT5High.py, lines 39-60, from
the point where the CSV rows are in hand.  The argument csv is the result
of pd.read_csv(csv_path, skiprows=2): Except.error stands for a raised
exception (caught by the broad except which returns an empty frame), and
Except.ok carries the Week/value cells of each data row.  toDate and
toNum are pd.to_datetime(errors="coerce") and
pd.to_numeric(errors="coerce") on a single cell, kept abstract; failed
coercion is none.  The value column applies fillna(0); then rows with an
uncoerced date are dropped and the frame is sorted by date. -/
def load_timeline (toDate : String → Option Timestamp) (toNum : String → Option ℚ)
    (theme : String) (csv : Except String (List RawRow)) : List TRow :=
  match csv with
  | .error _ => []
  | .ok rows =>
    if rows.isEmpty then []
    else
      let out : List (String × Option Timestamp × ℚ) :=
        rows.map fun r => (theme, toDate r.week, (toNum r.value).getD 0)
      let kept : List TRow := out.filterMap fun r =>
        match r.2.1 with
        | some d => some ⟨r.1, d, r.2.2⟩
        | none => none
      kept.insertionSort dateLe

/-- One parsed CSV data row of a geoMap file: the DMA cell and the score
cell. -/
structure RawGeoRow where
  dma : String
  score : String

/-- One row of the geo frame produced by load_geo. -/
structure GRow where
  theme : String
  dma : String
  score : ℚ
deriving DecidableEq

/-- load_geo of ads_strategy_report_GPT5High.py, lines 63-84, from the
point where the CSV rows are in hand.  The DMA cell is stripped of
surrounding whitespace (kept abstract as strip); scores are coerced with
fillna(0); rows whose stripped DMA is empty are dropped. -/
def load_geo (strip : String → String) (toNum : String → Option ℚ)
    (theme : String) (csv : Except String (List RawGeoRow)) : List GRow :=
  match csv with
  | .error _ => []
  | .ok rows =>
    if rows.isEmpty then []
    else
      let out : List GRow :=
        rows.map fun r => ⟨theme, strip r.dma, (toNum r.score).getD 0⟩
      out.filter fun r => 0 < r.dma.length

/-- build_master_frames of ads_strategy_report_GPT5High.py, lines 87-110:
per theme folder, load the timeline and geo frames and concatenate the
non-empty ones.  The folder listing is the input list of theme names
paired with the read results of the two CSVs. -/
def build_master_frames (toDate : String → Option Timestamp)
    (toNum : String → Option ℚ) (strip : String → String)
    (folders : List (String × Except String (List RawRow) × Except String (List RawGeoRow))) :
    List TRow × List GRow :=
  let time_rows := folders.map fun f => load_timeline toDate toNum f.1 f.2.1
  let geo_rows := folders.map fun f => load_geo strip toNum f.1 f.2.2
  ((time_rows.filter fun l => ¬ l.isEmpty).flatten,
   (geo_rows.filter fun l => ¬ l.isEmpty).flatten)

/-- The distinct themes of a master timeline, in first-appearance order;
pandas groupby iterates groups in sorted key order, which the claims
never depend on, so group enumeration order is kept abstract via this
dedup. -/
def timeThemes (master_time : List TRow) : List String :=
  (master_time.map TRow.theme).dedup

/-- The rows of one theme, in original order (groupby preserves the
within-group row order). -/
def themeGroup (master_time : List TRow) (t : String) : List TRow :=
  master_time.filter fun r => r.theme = t

/-- Mean of the value column with zeros replaced by NaN, as
Series.replace(0, np.nan).mean(): none when every value is zero. -/
def nzMean (w : List TRow) : Option ℚ :=
  colMean (w.map fun r => if r.value = 0 then none else some r.value)

/-- min(52, len(g)), the window size of compute_cagr, line 135. -/
def windowLen (g2 : List TRow) : Nat := min 52 g2.length

/-- The zero-excluded mean of the first min(52, n) rows, lines
135-137. -/
def firstMean (g2 : List TRow) : Option ℚ := nzMean (g2.take (windowLen g2))

/-- The zero-excluded mean of the last min(52, n) rows, lines
136-138. -/
def lastMean (g2 : List TRow) : Option ℚ := nzMean (g2.drop (g2.length - windowLen g2))

/-- years = max((end_date - start_date).days / 365.25, 0.1), line 133;
365.25 is the rational 1461/4. -/
def yearsOf (g2 : List TRow) : ℚ :=
  let ds := g2.map fun r => r.date.days
  max (((ds.max?.getD 0 - ds.min?.getD 0 : ℤ) : ℚ) / (1461 / 4)) (1 / 10)

/-- The per-group body of compute_cagr after the g.sort_values("date")
step, ads_strategy_report_GPT5High.py lines 129-142: given the
date-sorted group, skip it when the value total is zero or fewer than
30 rows remain or a window mean is missing or the first is zero,
otherwise compare the two window means over the elapsed years.  Python
** on floats is modelled by real rpow. -/
noncomputable def cagrOfSorted (g2 : List TRow) : Option ℝ :=
  if (g2.map TRow.value).sum = 0 ∨ g2.length < 30 then none
  else
    match firstMean g2, lastMean g2 with
    | some fm, some lm =>
      if fm = 0 then none
      else some ((((lm / fm : ℚ) : ℝ)) ^ ((1 : ℝ) / (yearsOf g2 : ℝ)) - 1)
    | _, _ => none

/-- The CAGR value of a passing group: (last_mean / first_mean) raised
to (1 / years) minus 1, line 141. -/
noncomputable def cagrFormula (g2 : List TRow) : ℝ :=
  ((((lastMean g2).getD 0 / (firstMean g2).getD 0 : ℚ) : ℝ))
    ^ ((1 : ℝ) / (yearsOf g2 : ℝ)) - 1

/-- The contract of g.sort_values("date"), line 128: the result is some
permutation of the group that is sorted by date.  pandas' default sort
kind is quicksort, which is not stable, so the order among rows with
equal dates is unspecified; the sort is therefore embedded as an
arbitrary function satisfying exactly this contract. -/
def IsDateSort (sortv : List TRow → List TRow) : Prop :=
  ∀ g, (sortv g).Perm g ∧ List.Sorted dateLe (sortv g)

/-- One conforming realisation of the sort_values contract, used to
instantiate closed statements; on groups with pairwise-distinct dates
every conforming realisation returns the same list. -/
def dateSort (g : List TRow) : List TRow := g.insertionSort dateLe

/-- The preconditions under which compute_cagr emits a value for a
date-sorted group: at least 30 rows, nonzero total, a present and
nonzero first-window mean, and a present last-window mean. -/
def cagrPre (g2 : List TRow) : Prop :=
  ¬ ((g2.map TRow.value).sum = 0 ∨ g2.length < 30)
  ∧ (∃ fm, firstMean g2 = some fm ∧ fm ≠ 0)
  ∧ (lastMean g2).isSome

/-- Modelled from the claim wording: the preconditions C6 states on the
date-sorted group, which omit the present-last-window-mean
requirement. -/
def cagrClaimPre (g2 : List TRow) : Prop :=
  30 ≤ g2.length
  ∧ (g2.map TRow.value).sum ≠ 0
  ∧ (∃ fm, firstMean g2 = some fm ∧ fm ≠ 0)

/-- compute_cagr of ads_strategy_report_GPT5High.py, lines 123-143: one
entry per theme group that passes every guard, the per-group
sort_values("date") abstracted as the function sortv (see
IsDateSort). -/
noncomputable def compute_cagr (sortv : List TRow → List TRow)
    (master_time : List TRow) : List (String × ℝ) :=
  (timeThemes master_time).filterMap fun t =>
    (cagrOfSorted (sortv (themeGroup master_time t))).map fun c => (t, c)

/-- month_name of ads_strategy_report_GPT5High.py, lines 269-270:
datetime(2000, m, 1).strftime("%B"), the English month name. -/
def month_name (m : Nat) : String :=
  (["January", "February", "March", "April", "May", "June", "July",
    "August", "September", "October", "November", "December"]).getD (m - 1) ""

/-- The distinct calendar months of a theme group, in first-appearance
order. -/
def monthsOf (g : List TRow) : List Nat :=
  (g.map fun r => r.date.month).dedup

/-- Mean value of a theme group within one calendar month, the
groupby(["theme", "month"]).mean() aggregate of compute_peak_months. -/
def monthMean (g : List TRow) (m : Nat) : ℚ :=
  qmean ((g.filter fun r => r.date.month = m).map TRow.value)

/-- Descending-mean order on the months of one group, the
sort_values("value", ascending=False) of compute_peak_months. -/
def monthGe (g : List TRow) (m m' : Nat) : Prop :=
  monthMean g m' ≤ monthMean g m

instance (g : List TRow) : DecidableRel (monthGe g) :=
  fun _ _ => inferInstanceAs (Decidable (_ ≤ _))

instance (g : List TRow) : IsTotal Nat (monthGe g) :=
  ⟨fun a b => (le_total (monthMean g b) (monthMean g a)).imp id id⟩

instance (g : List TRow) : IsTrans Nat (monthGe g) :=
  ⟨fun _ _ _ h h' => le_trans h' h⟩

/-- The per-theme body of compute_peak_months: monthly means, sorted
descending, top two months, mapped through month_name. -/
def peakMonthsOf (g : List TRow) : List String :=
  (((monthsOf g).insertionSort (monthGe g)).take 2).map month_name

/-- compute_peak_months of ads_strategy_report_GPT5High.py, lines
273-284. -/
def compute_peak_months (master_time : List TRow) : List (String × List String) :=
  if master_time.isEmpty then []
  else (timeThemes master_time).map fun t => (t, peakMonthsOf (themeGroup master_time t))

abbrev Vec := List ℚ

/-- np.allclose(v, v.mean()): every entry is within absolute tolerance
1e-8 plus relative tolerance 1e-5 of the mean (the numpy defaults).
This is the constant-vector test of pairwise_correlations, line 207. -/
def allcloseConst (v : Vec) : Bool :=
  v.all fun x => decide (|x - qmean v| ≤ 1 / 100000000 + (1 / 100000) * |qmean v|)

/-- Sum of products of centred entries.  covSum a b is proportional to
the sample covariance of a and b, and covSum a a to the variance of a;
the shared normalisation constant cancels in the Pearson quotient. -/
def covSum (a b : Vec) : ℚ :=
  ((a.zip b).map fun p => (p.1 - qmean a) * (p.2 - qmean b)).sum

/-- Decision of "np.corrcoef(a, b)[0, 1] >= t" as used in build_clusters
(line 224, with t = corr_thresh = 0.5).  Empty and allclose-constant
vectors take correlation 0.0 (lines 203-208), which fails a positive
threshold; otherwise the comparison is squared to avoid the square roots
of the standard deviations.  The decision is stated for 0 < t, which
holds at the single call site; corrGe_iff_pearson below proves it
equivalent to the real Pearson comparison. -/
def corrGe (a b : Vec) (t : ℚ) : Bool :=
  if a.length = 0 ∨ b.length = 0 then decide (t ≤ 0)
  else if allcloseConst a ∨ allcloseConst b then decide (t ≤ 0)
  else decide (0 < covSum a b ∧ t ^ 2 * (covSum a a * covSum b b) ≤ covSum a b ^ 2)

/-- jaccard of ads_strategy_report_GPT5High.py, lines 176-183. -/
def jaccard (a b : Finset String) : ℚ :=
  if a = ∅ ∧ b = ∅ then 1
  else if a = ∅ ∨ b = ∅ then 0
  else
    let inter := (a ∩ b).card
    let union := (a ∪ b).card
    if union = 0 then 0 else (inter : ℚ) / union

/-- list(vectors.keys()) in build_clusters, line 216. -/
def themes (vectors : List (String × Vec)) : List String :=
  vectors.map Prod.fst

/-- vectors[t]: dict access, total via the (unreachable for keys of the
dict) default []. -/
def vecOf (vectors : List (String × Vec)) (t : String) : Vec :=
  (vectors.lookup t).getD []

/-- geo_sets.get(t, set()) in build_clusters, line 223. -/
def geoOf (geo : List (String × Finset String)) (t : String) : Finset String :=
  (geo.lookup t).getD ∅

/-- The dual-threshold edge test of build_clusters, line 224. -/
def edgeB (vectors : List (String × Vec)) (geo : List (String × Finset String))
    (ct jt : ℚ) (a b : String) : Bool :=
  corrGe (vecOf vectors a) (vecOf vectors b) ct &&
    decide (jt ≤ jaccard (geoOf geo a) (geoOf geo b))

/-- The adjacency sets of build_clusters, lines 221-226.  The code walks
the ordered pairs (i < j) of themes and inserts each passing pair in
both directions into a dict of sets; since the edge test is symmetric in
a and b, the resulting set adj[t] is exactly the set of other themes
passing the test against t, which is how it is embedded here. -/
def adj (vectors : List (String × Vec)) (geo : List (String × Finset String))
    (ct jt : ℚ) (t : String) : List String :=
  (themes vectors).filter fun u => decide (u ≠ t) && edgeB vectors geo ct jt t u

/-- The breadth-first search of build_clusters, lines 237-243: pop cur
from the queue, append it to the component, and push every not yet
visited neighbour, marking it visited.  The filter on membership in univ
and the dedup are no-ops for the adjacency lists built by adj (they are
duplicate-free sublists of the theme list); they make termination
manifest: each pushed element shrinks the unvisited part of univ. -/
def bfs (nbrs : String → List String) (univ : List String)
    (queue visited comp : List String) : List String × List String :=
  match queue with
  | [] => (comp, visited)
  | cur :: rest =>
    let fresh := ((nbrs cur).filter fun n =>
      decide (n ∉ visited) && decide (n ∈ univ)).dedup
    bfs nbrs univ (rest ++ fresh) (visited ++ fresh) (comp ++ [cur])
termination_by 2 * (univ.toFinset \ visited.toFinset).card + queue.length
decreasing_by
  set F := ((nbrs cur).filter fun n =>
    decide (n ∉ visited) && decide (n ∈ univ)).dedup with hF
  have hnd : F.Nodup := hF ▸ List.nodup_dedup _
  have hlen : F.toFinset.card = F.length := by
    rw [List.card_toFinset, List.dedup_eq_self.mpr hnd]
  have hsubs : F.toFinset ⊆ univ.toFinset \ visited.toFinset := by
    intro n hn
    simp only [List.mem_toFinset, hF] at hn
    have hn' := List.mem_dedup.mp hn
    rcases List.mem_filter.mp hn' with ⟨_, hcond⟩
    simp only [Bool.and_eq_true, decide_eq_true_eq] at hcond
    simp only [Finset.mem_sdiff, List.mem_toFinset]
    exact ⟨hcond.2, hcond.1⟩
  have hsplit : univ.toFinset \ (visited ++ F).toFinset
      = (univ.toFinset \ visited.toFinset) \ F.toFinset := by
    rw [List.toFinset_append]
    ext x
    simp only [Finset.mem_sdiff, Finset.mem_union]
    tauto
  have key : (univ.toFinset \ (visited ++ F).toFinset).card + F.toFinset.card
      = (univ.toFinset \ visited.toFinset).card := by
    rw [hsplit, Finset.card_sdiff_add_card_eq_card hsubs]
  have hq : (rest ++ F).length = rest.length + F.length :=
    List.length_append rest F
  rw [hq, List.length_cons]
  omega

/-- Python sorted() on theme names: lexicographic comparison of the
code-point sequences of the two strings. -/
def codes (s : String) : List Nat :=
  s.data.map Char.toNat

/-- The string order of Python sorted(comp), build_clusters line 244. -/
def pyStrLe (a b : String) : Prop := codes a ≤ codes b

instance : DecidableRel pyStrLe := fun a b =>
  inferInstanceAs (Decidable (codes a ≤ codes b))

instance : IsTotal String pyStrLe := ⟨fun a b => le_total (codes a) (codes b)⟩

instance : IsTrans String pyStrLe := ⟨fun _ _ _ h h' => le_trans h h'⟩

/-- The connected-components loop of build_clusters, lines 229-244: for
each theme not yet visited, run a breadth-first search seeded with that
theme and append the sorted component. -/
def componentsLoop (nbrs : String → List String) (univ : List String) :
    List String → List String → List (List String) → List (List String)
  | [], _, clusters => clusters
  | t :: ts, visited, clusters =>
    if t ∈ visited then componentsLoop nbrs univ ts visited clusters
    else
      let r := bfs nbrs univ [t] (visited ++ [t]) []
      componentsLoop nbrs univ ts r.2 (clusters ++ [r.1.insertionSort pyStrLe])

/-- str.lower() restricted to its ASCII action, on code points; the
theme names are ASCII folder names. -/
def lowerCodes (s : String) : List Nat :=
  s.data.map fun c => if 65 ≤ c.toNat ∧ c.toNat ≤ 90 then c.toNat + 32 else c.toNat

/-- The final cluster order of build_clusters, line 247: sort key
(-len(lst), [s.lower() for s in lst]), i.e. decreasing size with ties by
the lexicographic order of the lowercased member lists. -/
def clusterLe (c d : List String) : Prop :=
  d.length < c.length ∨
    (c.length = d.length ∧ c.map lowerCodes ≤ d.map lowerCodes)

instance : DecidableRel clusterLe := fun _ _ =>
  inferInstanceAs (Decidable (_ ∨ _))

instance : IsTotal (List String) clusterLe := by
  constructor
  intro c d
  rcases lt_trichotomy d.length c.length with h | h | h
  · exact Or.inl (Or.inl h)
  · rcases le_total (c.map lowerCodes) (d.map lowerCodes) with h' | h'
    · exact Or.inl (Or.inr ⟨h.symm, h'⟩)
    · exact Or.inr (Or.inr ⟨h, h'⟩)
  · exact Or.inr (Or.inl h)

instance : IsTrans (List String) clusterLe := by
  constructor
  intro c d e h1 h2
  rcases h1 with h1 | ⟨h1, h1'⟩ <;> rcases h2 with h2 | ⟨h2, h2'⟩
  · exact Or.inl (h2.trans h1)
  · exact Or.inl (h2 ▸ h1)
  · exact Or.inl (h1 ▸ h2)
  · exact Or.inr ⟨h1.trans h2, h1'.trans h2'⟩

/-- build_clusters of ads_strategy_report_GPT5High.py, lines 215-248. -/
def build_clusters (vectors : List (String × Vec)) (geo : List (String × Finset String))
    (corr_thresh jacc_thresh : ℚ) : List (List String) :=
  let ts := themes vectors
  if ts.isEmpty then []
  else
    let clusters := componentsLoop (adj vectors geo corr_thresh jacc_thresh) ts ts [] []
    clusters.insertionSort clusterLe

/-- The Pearson correlation coefficient of two equal-length vectors,
the value of np.corrcoef(a, b)[0, 1] over the reals. -/
noncomputable def pearson (a b : Vec) : ℝ :=
  (covSum a b : ℝ) / (Real.sqrt (covSum a a) * Real.sqrt (covSum b b))

/-- The correlation value computed by pairwise_correlations, lines
196-212: 0.0 for an empty vector, 0.0 for a vector that numpy allclose
deems constant, else the Pearson coefficient. -/
noncomputable def codeCorr (a b : Vec) : ℝ :=
  if a.length = 0 ∨ b.length = 0 then 0
  else if allcloseConst a ∨ allcloseConst b then 0
  else pearson a b

/-- A constant vector: all entries equal. -/
def isConstVec (v : Vec) : Prop := ∀ x ∈ v, ∀ y ∈ v, x = y

instance : DecidablePred isConstVec := fun v =>
  inferInstanceAs (Decidable (∀ x ∈ v, ∀ y ∈ v, x = y))

/-- Modelled from the claim wording: the correlation taken as 0.0 when
either vector is empty or constant (exactly constant), else Pearson. -/
noncomputable def claimCorr (a b : Vec) : ℝ :=
  if a.length = 0 ∨ b.length = 0 then 0
  else if isConstVec a ∨ isConstVec b then 0
  else pearson a b

/-- The adjacency relation the code realises: distinct themes whose
correlation value (with the allclose-constant convention) is at least
0.5 and whose DMA-set Jaccard similarity is at least 0.15. -/
def codeEdge (vectors : List (String × Vec)) (geo : List (String × Finset String))
    (a b : String) : Prop :=
  a ∈ themes vectors ∧ b ∈ themes vectors ∧ a ≠ b ∧
    (1 / 2 : ℝ) ≤ codeCorr (vecOf vectors a) (vecOf vectors b) ∧
    (3 / 20 : ℚ) ≤ jaccard (geoOf geo a) (geoOf geo b)

/-- Modelled from the claim wording: the adjacency relation with the
correlation convention applying to exactly constant vectors only. -/
def claimEdge (vectors : List (String × Vec)) (geo : List (String × Finset String))
    (a b : String) : Prop :=
  a ∈ themes vectors ∧ b ∈ themes vectors ∧ a ≠ b ∧
    (1 / 2 : ℝ) ≤ claimCorr (vecOf vectors a) (vecOf vectors b) ∧
    (3 / 20 : ℚ) ≤ jaccard (geoOf geo a) (geoOf geo b)

/-- out is exactly the list of connected components of the graph E on
the vertex list ts: every vertex lies in some listed cluster, and every
listed cluster is the full connectivity class of one of the vertices. -/
def IsComponentsOf (E : String → String → Prop) (ts : List String)
    (out : List (List String)) : Prop :=
  (∀ t ∈ ts, ∃ c ∈ out, t ∈ c) ∧
  (∀ c ∈ out, ∃ t ∈ ts, ∀ x, x ∈ c ↔ Relation.ReflTransGen E t x)

end ASR

/-- pandas Series.var(): skip NaN, sample variance with ddof = 1, NaN
when fewer than two values remain. -/
def pdVar (v : List (Option ℚ)) : Option ℚ :=
  let xs := v.filterMap id
  if xs.length < 2 then none
  else some ((xs.map fun x => (x - qmean xs) ^ 2).sum / (xs.length - 1))

/-- parse_related_queries, identical in multi_timeframe_analysis.py
(lines 119-138) and ppc_campaign_analysis.py (lines 81-100): walk the
stripped lines, switch section on TOP / RISING, and collect
(query, score) string pairs from comma-containing lines.  The input is
the stripped line list of the file; Python str.strip on each cell is the
abstract strip parameter. -/
structure RelatedQueries where
  top : List (String × String)
  rising : List (String × String)
deriving DecidableEq

def parseRelatedQueriesStep (strip : String → String)
    (st : Option Bool × RelatedQueries) (line : String) : Option Bool × RelatedQueries :=
  if line = "TOP" then (some true, st.2)
  else if line = "RISING" then (some false, st.2)
  else
    match st.1 with
    | none => st
    | some sec =>
      if line ≠ "" ∧ (line.splitOn ",").length ≥ 2 then
        let parts := line.splitOn ","
        let q := strip (parts.getD 0 "")
        let s := strip (parts.getD 1 "")
        if sec then (st.1, ⟨st.2.top ++ [(q, s)], st.2.rising⟩)
        else (st.1, ⟨st.2.top, st.2.rising ++ [(q, s)]⟩)
      else st

def parse_related_queries (strip : String → String) (lines : List String) :
    RelatedQueries :=
  (lines.foldl (parseRelatedQueriesStep strip) (none, ⟨[], []⟩)).2

namespace MTA

/-- The shape of a multiTimeline CSV after pd.read_csv(skiprows=2):
whether the Week column is present, whether a second column exists, and
the (Week cell, value cell) data rows. -/
structure RawTL where
  hasWeek : Bool
  hasValueCol : Bool
  rows : List (String × String)

/-- The shape of a geoMap CSV after pd.read_csv(skiprows=2): whether at
least two columns exist, and the (metro cell, interest cell) rows. -/
structure RawGeo where
  hasTwoCols : Bool
  rows : List (String × String)

/-- The per-timeframe entry of themes_data, multi_timeframe_analysis.py
lines 49-56, with its computed metrics.  none on an Option ℚ field
models float NaN; the initialised defaults are timeline/geo/queries None
and avg_volume/trend_slope/volatilitySq 0.  The code stores the
volatility std/mean and the scripts only ever compare it against scaled
values of itself, so its square is stored here, which is rational; every
comparison made of it is embedded with correspondingly squared
constants, an equivalent test since both sides are non-negative. -/
structure TFEntry where
  timeline : Option (List (Timestamp × Option ℚ))
  geo : Option (List (String × Option ℚ))
  queries : Option RelatedQueries
  avg_volume : Option ℚ
  trend_slope : Option ℚ
  volatilitySq : Option ℚ

def defaultEntry : TFEntry :=
  ⟨none, none, none, some 0, some 0, some 0⟩

/-- scipy stats.linregress slope over y against x = 0, 1, ..., n-1:
cov(x, y) / var(x); NaN when any y value is NaN (scipy propagates NaN),
and the code only computes it when the frame has more than one row. -/
def linregressSlope (y : List (Option ℚ)) : Option ℚ :=
  if y.any Option.isNone then none
  else
    let ys := y.filterMap id
    let xs := (List.range ys.length).map (Nat.cast : Nat → ℚ)
    some (ASR.covSum xs ys / ASR.covSum xs xs)

/-- The timeline branch of load_all_timeframe_data, lines 58-91: coerce
Week, drop rows with an uncoerced Week, coerce the second column to
Search_Volume, store the timeline and the metrics.  A raised read error
(Except.error) prints a warning and leaves the entry as given. -/
def loadTimelinePart (toDate : String → Option Timestamp) (toNum : String → Option ℚ)
    (e : TFEntry) (r : Except String RawTL) : TFEntry × List String :=
  match r with
  | .error msg => (e, ["Error loading timeline: " ++ msg])
  | .ok tl =>
    if tl.rows.isEmpty ∨ ¬ tl.hasWeek then (e, [])
    else
      let dated : List (Timestamp × String) :=
        tl.rows.filterMap fun p => (toDate p.1).map fun d => (d, p.2)
      if ¬ tl.hasValueCol then (e, [])
      else
        let vols : List (Option ℚ) := dated.map fun p => toNum p.2
        let m := colMean vols
        let e1 := { e with
          timeline := some (dated.map fun p => (p.1, toNum p.2)),
          avg_volume := m }
        let e2 := match m with
          | some q =>
            if 0 < q then { e1 with volatilitySq := (pdVar vols).map (· / q ^ 2) }
            else e1
          | none => e1
        let e3 :=
          if 1 < dated.length then { e2 with trend_slope := linregressSlope vols }
          else e2
        (e3, [])

/-- The geo branch of load_all_timeframe_data, lines 93-103. -/
def loadGeoPart (toNum : String → Option ℚ) (e : TFEntry)
    (r : Except String RawGeo) : TFEntry × List String :=
  match r with
  | .error msg => (e, ["Error loading geo data: " ++ msg])
  | .ok g =>
    if g.rows.isEmpty ∨ ¬ g.hasTwoCols then (e, [])
    else ({ e with geo := some (g.rows.map fun p => (p.1, toNum p.2)) }, [])

/-- The related-queries branch of load_all_timeframe_data, lines
105-114. -/
def loadQueriesPart (strip : String → String) (e : TFEntry)
    (r : Except String (List String)) : TFEntry × List String :=
  match r with
  | .error msg => (e, ["Error loading queries: " ++ msg])
  | .ok lines => ({ e with queries := some (parse_related_queries strip lines) }, [])

/-- One timeframe of load_all_timeframe_data: initialise the entry to
its defaults and run the three loaders; a file glob with no match (outer
none) skips the loader without touching the entry. -/
def load_timeframe (toDate : String → Option Timestamp) (toNum : String → Option ℚ)
    (strip : String → String) (tl : Option (Except String RawTL))
    (geo : Option (Except String RawGeo)) (rq : Option (Except String (List String))) :
    TFEntry × List String :=
  let s1 := match tl with
    | none => (defaultEntry, [])
    | some r => loadTimelinePart toDate toNum defaultEntry r
  let s2 := match geo with
    | none => s1
    | some r =>
      let p := loadGeoPart toNum s1.1 r
      (p.1, s1.2 ++ p.2)
  match rq with
  | none => s2
  | some r =>
    let p := loadQueriesPart strip s2.1 r
    (p.1, s2.2 ++ p.2)

/-- The per-theme momentum record initialised at
calculate_momentum_scores, lines 147-153.  momentum_score is an Option
to model NaN propagation from a NaN one-year average. -/
structure Momentum where
  momentum_score : Option ℚ
  acceleration : String
  short_term_trend : Option ℚ
  long_term_trend : Option ℚ
  volatility_trend : String
deriving DecidableEq

/-- volumes[tf]: outer none when the timeframe is absent from
timeframe_data, inner none when the stored average is NaN. -/
def volumesOf (td : List (String × TFEntry)) (tf : String) : Option (Option ℚ) :=
  (td.lookup tf).map TFEntry.avg_volume

def trendsOf (td : List (String × TFEntry)) (tf : String) : Option (Option ℚ) :=
  (td.lookup tf).map TFEntry.trend_slope

def volatilitiesOf (td : List (String × TFEntry)) (tf : String) : Option (Option ℚ) :=
  (td.lookup tf).map TFEntry.volatilitySq

/-- The acceleration classification, lines 172-182, computed inside the
guard volumes["2 Year"] > 0; a NaN one-year volume makes both float
comparisons false, landing in the stable branch. -/
def accelOf (v1 : Option ℚ) (q2 q5 : ℚ) : String :=
  match v1 with
  | none => "stable"
  | some q1 =>
    let recent := (q1 / q2 - 1) * 100
    let hist := (q2 / q5 - 1) * 100
    if hist + 10 < recent then "accelerating"
    else if recent < hist - 10 then "decelerating"
    else "stable"

/-- The volatility trend classification, lines 188-193, on the squared
stored values (1.2 squared is 36/25, 0.8 squared is 16/25); a NaN on
either side makes both comparisons false. -/
def volTrendOf (w1 w5 : Option ℚ) : String :=
  match w1, w5 with
  | some a, some b =>
    if b * (36 / 25) < a then "increasing"
    else if a < b * (16 / 25) then "decreasing"
    else "stable"
  | _, _ => "stable"

/-- The per-theme body of calculate_momentum_scores, lines 146-193. -/
def momentumOf (td : List (String × TFEntry)) : Momentum :=
  let base : Momentum := ⟨some 0, "stable", some 0, some 0, "stable"⟩
  let scored : Momentum :=
    match volumesOf td "1 Year", volumesOf td "5 Year" with
    | some v1, some (some q5) =>
      if 0 < q5 then
        let ms := v1.map fun q1 => (q1 / q5 - 1) * 100
        let acc :=
          match volumesOf td "2 Year" with
          | some (some q2) => if 0 < q2 then accelOf v1 q2 q5 else "stable"
          | _ => "stable"
        { base with momentum_score := ms, acceleration := acc }
      else base
    | _, _ => base
  let trended := { scored with
    short_term_trend := (trendsOf td "1 Year").getD (some 0),
    long_term_trend := (trendsOf td "5 Year").getD (some 0) }
  match volatilitiesOf td "1 Year", volatilitiesOf td "5 Year" with
  | some w1, some w5 => { trended with volatility_trend := volTrendOf w1 w5 }
  | _, _ => trended

/-- calculate_momentum_scores of multi_timeframe_analysis.py, lines
140-195. -/
def calculate_momentum_scores (themes_data : List (String × List (String × TFEntry))) :
    List (String × Momentum) :=
  themes_data.map fun p => (p.1, momentumOf p.2)

end MTA

namespace PPC

/-- The per-market record of ppc_campaign_analysis.py, lines 36-42.
avg_search_volume is doubly optional: the outer none models the dict key
being absent (it is only assigned when a numeric column is found). -/
structure Market where
  timeline_data : Option (List (String × String))
  related_queries : Option RelatedQueries
  geo_data : Option (List (String × String))
  avg_search_volume : Option ℚ

def defaultMarket : Market := ⟨none, none, none, none⟩

/-- The timeline branch of load_trends_data, lines 44-57: on a read
error, print a warning and leave the market record untouched; otherwise
store the frame and, when pandas finds a numeric column (kept abstract
as selectNumeric, pandas dtype inference), its mean. -/
def loadMarketTimeline (selectNumeric : List (String × String) → Option (List ℚ))
    (m : Market) (r : Except String (List (String × String))) : Market × List String :=
  match r with
  | .error msg => (m, ["Error loading timeline: " ++ msg])
  | .ok rows =>
    if rows.isEmpty then (m, [])
    else
      match selectNumeric rows with
      | some col =>
        let m1 := { m with
          timeline_data := some rows,
          avg_search_volume := some (qmean col) }
        (m1, [])
      | none => (m, [])

/-- The related-queries branch of load_trends_data, lines 59-67. -/
def loadMarketQueries (strip : String → String) (m : Market)
    (r : Except String (List String)) : Market × List String :=
  match r with
  | .error msg => (m, ["Error loading queries: " ++ msg])
  | .ok lines =>
    ({ m with related_queries := some (parse_related_queries strip lines) }, [])

/-- The geo branch of load_trends_data, lines 69-77. -/
def loadMarketGeo (m : Market) (r : Except String (List (String × String))) :
    Market × List String :=
  match r with
  | .error msg => (m, ["Error loading geo data: " ++ msg])
  | .ok rows =>
    if rows.isEmpty then (m, [])
    else ({ m with geo_data := some rows }, [])

/-- One market of load_trends_data, lines 32-77: initialise the record
and run the three loaders when their file globs matched. -/
def load_market (selectNumeric : List (String × String) → Option (List ℚ))
    (strip : String → String) (tl : Option (Except String (List (String × String))))
    (rq : Option (Except String (List String)))
    (geo : Option (Except String (List (String × String)))) : Market × List String :=
  let s1 := match tl with
    | none => (defaultMarket, [])
    | some r => loadMarketTimeline selectNumeric defaultMarket r
  let s2 := match rq with
    | none => s1
    | some r =>
      let p := loadMarketQueries strip s1.1 r
      (p.1, s1.2 ++ p.2)
  match geo with
  | none => s2
  | some r =>
    let p := loadMarketGeo s2.1 r
    (p.1, s2.2 ++ p.2)

end PPC

namespace GKA

/-- One entry of GoogleAdsException.failure.errors; the per-field
location diagnostics printed in an inner loop are not referenced by any
claim and are elided. -/
structure ErrorDetail where
  message : String
deriving DecidableEq

/-- The observers of a raised GoogleAdsException used by the scripts:
ex.request_id, ex.error.code().name and ex.failure.errors. -/
structure GoogleAdsErr where
  request_id : String
  code_name : String
  errors : List ErrorDetail
deriving DecidableEq

/-- How a script-level operation ends: a normal return, or process
termination through sys.exit. -/
inductive Outcome (α : Type) where
  | ok (a : α)
  | exitProcess (code : Nat)
deriving DecidableEq

/-- The lines printed by the GoogleAdsException handler of
google_ads_keyword_analysis.py, lines 90-98: the header naming the
request id and the status code, then one line per error message. -/
def printedFailure (ex : GoogleAdsErr) : List String :=
  ("Request with ID \"" ++ ex.request_id ++ "\" failed with status \""
      ++ ex.code_name ++ "\" and includes the following errors:")
    :: ex.errors.map fun e => "Error with message \"" ++ e.message ++ "\"."

/-- get_keyword_metrics of google_ads_keyword_analysis.py, lines 54-99,
at the API boundary: the argument is the outcome of
generate_keyword_ideas, Except.error being a raised GoogleAdsException.
The handler prints the failure and calls sys.exit(1). -/
def get_keyword_metrics {α : Type} (resp : Except GoogleAdsErr α) :
    List String × Outcome α :=
  match resp with
  | .ok r => ([], .ok r)
  | .error ex => (printedFailure ex, .exitProcess 1)

end GKA

namespace App

/-- result.keyword_idea_metrics as used by get_keyword_ideas; none on a
field models the proto falsy default. -/
structure IdeaMetrics where
  avg_monthly_searches : Option Nat
  competition : Option String
  low_top_of_page_bid_micros : Option Nat
  high_top_of_page_bid_micros : Option Nat
  competition_index : Option Nat
deriving DecidableEq

structure KeywordIdea where
  text : String
  metrics : IdeaMetrics
deriving DecidableEq

/-- One row of the keywords_data list built by get_keyword_ideas. -/
structure KeywordRow where
  keyword : String
  avg_monthly_searches : Nat
  competition : String
  low_bid : ℚ
  high_bid : ℚ
  competition_index : Nat
deriving DecidableEq

/-- The per-result row construction of get_keyword_ideas, app.py lines
279-296. -/
def ideaRow (r : KeywordIdea) : KeywordRow where
  keyword := r.text
  avg_monthly_searches := r.metrics.avg_monthly_searches.getD 0
  competition := r.metrics.competition.getD "UNSPECIFIED"
  low_bid := ((r.metrics.low_top_of_page_bid_micros.getD 0 : ℚ)) / 1000000
  high_bid := ((r.metrics.high_top_of_page_bid_micros.getD 0 : ℚ)) / 1000000
  competition_index := r.metrics.competition_index.getD 0

/-- The error lines displayed by the GoogleAdsException handler of
get_keyword_ideas, app.py lines 300-304. -/
def displayedAdsError (ex : GKA.GoogleAdsErr) : List String :=
  ("Google Ads API Error: " ++ ex.code_name)
    :: ex.errors.map fun e => "Error message: " ++ e.message

/-- get_keyword_ideas of app.py, lines 250-307, at the API boundary:
the response rows are truncated at max_keywords and mapped to rows; a
raised GoogleAdsException is caught, its code and messages are
displayed, and the empty list is returned. -/
def get_keyword_ideas (max_keywords : Nat)
    (resp : Except GKA.GoogleAdsErr (List KeywordIdea)) :
    List String × List KeywordRow :=
  match resp with
  | .ok rs => ([], (rs.take max_keywords).map ideaRow)
  | .error ex => (displayedAdsError ex, [])

/-- A loaded timeframe DataFrame of load_existing_trends_data, by
columns; cells may be NaN. -/
structure DF where
  cols : List (List (Option ℚ))
deriving DecidableEq

/-- data[tf].iloc[:, 1].mean() if len(data[tf].columns) > 1 else 0, the
market-average expression of generate_comprehensive_strategy, app.py
lines 328-329. -/
def tfAvg (df : DF) : Option ℚ :=
  if 1 < df.cols.length then colMean (df.cols.getD 1 []) else some 0

/-- One entry of market_scores, app.py lines 333-337; none models NaN
propagated from a NaN recent average. -/
structure MarketScore where
  growth_rate : Option ℚ
  recent_volume : Option ℚ
  priority_score : Option ℚ
deriving DecidableEq

/-- The guarded body of the market-scores loop, app.py lines 326-337:
none when the guard historical_avg > 0 fails. -/
def scoreOf (d1 d5 : DF) : Option MarketScore :=
  let recent := tfAvg d1
  match tfAvg d5 with
  | some h =>
    if 0 < h then
      let growth := recent.map fun r => (r / h - 1) * 100
      some ⟨growth, recent,
        growth.bind fun g => recent.map fun r => g * r / 100⟩
    else none
  | none => none

/-- The market_scores dict of generate_comprehensive_strategy, app.py
lines 325-337: markets lacking a "1 Year" or "5 Year" frame, or failing
the historical_avg > 0 guard, are omitted. -/
def marketScores (trends_data : List (String × List (String × DF))) :
    List (String × MarketScore) :=
  trends_data.filterMap fun p =>
    match p.2.lookup "1 Year", p.2.lookup "5 Year" with
    | some d1, some d5 => (scoreOf d1 d5).map fun s => (p.1, s)
    | _, _ => none

/-- The campaign dict passed to CampaignService.mutate_campaigns.
Fields not referenced by any claim (network settings, geo targeting,
language settings) are elided. -/
structure CampaignPayload where
  name : String
  advertising_channel_type : String
  status : String
  campaign_budget : String
  bidding_strategy_type : String
  target_cpa_micros : Int
  start_date : String
  end_date : String
deriving DecidableEq

/-- The result dict returned by the campaign-creation helpers.  status
is an Option because the dict of create_expert_campaign (app.py lines
1616-1622) carries no status key, while the dict of
create_expert_park_city_campaign (lines 1368-1375) does. -/
structure CampaignResult where
  name : String
  campaign_id : String
  daily_budget : ℚ
  keyword_count : Nat
  ad_group_count : Nat
  status : Option String
deriving DecidableEq

/-- The keyword lists of create_park_city_ad_groups_and_keywords, app.py
lines 1484-1491. -/
def high_priority_keywords : List String :=
  ["park city real estate", "park city utah real estate",
   "park city real estate for sale", "park city homes for sale",
   "park city condos for sale", "park city luxury homes"]

/-- app.py lines 1506-1518. -/
def medium_priority_keywords : List String :=
  ["utah real estate", "park city utah", "real estate in park city",
   "park city mountain", "park city ski resort", "park city resort",
   "park city hotels", "park city resorts", "park city ski resorts",
   "park city golf", "park city mountain resort"]

/-- app.py lines 1533-1538. -/
def broad_keywords : List String :=
  ["park city utah homes", "park city real estate agent",
   "park city townhomes", "park city investment property"]

/-- The (ad group count, keyword count) returned on the success path of
create_park_city_ad_groups_and_keywords, app.py lines 1449-1563: one ad
group, and one keyword per entry of the three lists. -/
def create_park_city_ad_groups_and_keywords : Nat × Nat :=
  (1, high_priority_keywords.length + medium_priority_keywords.length
    + broad_keywords.length)

/-- The config dict fields of create_expert_park_city_campaign used by
the claims. -/
structure CampaignConfig where
  name : String
  budget : ℚ
deriving DecidableEq

/-- create_expert_park_city_campaign of app.py, lines 1314-1379, on its
success path.  now and endDate stand for the formatted start and end
dates; createBudget and mutateCampaigns are the API boundary, returning
the created resource ids.  int() truncation of the target CPA is
embedded as the floor, the argument being non-negative at the call
sites.  The returned result dict reports status PAUSED. -/
def create_expert_park_city_campaign (now endDate customer_id : String)
    (cfg : CampaignConfig) (createBudget : ℚ → String)
    (mutateCampaigns : CampaignPayload → String) :
    CampaignPayload × CampaignResult :=
  let daily_budget := cfg.budget / 30
  let budget_id := createBudget daily_budget
  let campaign : CampaignPayload := {
    name := cfg.name ++ " - " ++ now,
    advertising_channel_type := "SEARCH",
    status := "PAUSED",
    campaign_budget := "customers/" ++ customer_id ++ "/campaignBudgets/" ++ budget_id,
    bidding_strategy_type := "TARGET_CPA",
    target_cpa_micros := ⌊daily_budget * (1 / 4) * 1000000⌋,
    start_date := now,
    end_date := endDate }
  let campaign_id := mutateCampaigns campaign
  let counts := create_park_city_ad_groups_and_keywords
  (campaign,
   ⟨campaign.name, campaign_id, daily_budget, counts.2, counts.1, some "PAUSED"⟩)

/-- The group dict fields of create_expert_campaign used by the
claims. -/
structure CampaignGroup where
  name : String
  budget : ℚ
deriving DecidableEq

/-- create_expert_campaign of app.py, lines 1569-1626, on its success
path.  adCounts is the pair returned by create_ad_groups_and_keywords,
whose inner API calls are kept abstract.  The campaign is created with
status PAUSED, but the returned result dict carries no status key. -/
def create_expert_campaign (now endDate customer_id : String)
    (group : CampaignGroup) (createBudget : ℚ → String)
    (mutateCampaigns : CampaignPayload → String) (adCounts : Nat × Nat) :
    CampaignPayload × CampaignResult :=
  let daily_budget := group.budget / 30
  let campaign : CampaignPayload := {
    name := group.name ++ " - " ++ now,
    advertising_channel_type := "SEARCH",
    status := "PAUSED",
    campaign_budget := "customers/" ++ customer_id ++ "/campaignBudgets/"
      ++ createBudget daily_budget,
    bidding_strategy_type := "TARGET_CPA",
    target_cpa_micros := ⌊daily_budget * (3 / 10) * 1000000⌋,
    start_date := now,
    end_date := endDate }
  let campaign_id := mutateCampaigns campaign
  (campaign,
   ⟨campaign.name, campaign_id, daily_budget, adCounts.2, adCounts.1, none⟩)

end App

/-- One pd.read_csv call site of the repository. -/
structure CsvReadSite where
  script : String
  pattern : String
  viaGlob : Bool
  skiprows : Nat
deriving DecidableEq

/-- Every pd.read_csv call site of the repository: app.py lines 124,
134, 143 and 168; ads_strategy_report_GPT5High.py lines 44 and 68;
ppc_campaign_analysis.py lines 48 and 73; multi_timeframe_analysis.py
lines 62 and 97.  pattern is the glob pattern located inside the market
and timeframe folders when viaGlob is true, else the literal path. -/
def csvReadSites : List CsvReadSite :=
  [⟨"app.py", "multiTimeline*.csv", true, 2⟩,
   ⟨"app.py", "relatedQueries*.csv", true, 3⟩,
   ⟨"app.py", "geoMap*.csv", true, 1⟩,
   ⟨"app.py", "Analysis/master_dataframe.csv", false, 0⟩,
   ⟨"Analysis/GPT/ads_strategy_report_GPT5High.py", "multiTimeline*.csv", true, 2⟩,
   ⟨"Analysis/GPT/ads_strategy_report_GPT5High.py", "geoMap*.csv", true, 2⟩,
   ⟨"Analysis/ppc_campaign_analysis.py", "multiTimeline*.csv", true, 2⟩,
   ⟨"Analysis/ppc_campaign_analysis.py", "geoMap*.csv", true, 2⟩,
   ⟨"Analysis/multi_timeframe_analysis.py", "multiTimeline*.csv", true, 2⟩,
   ⟨"Analysis/multi_timeframe_analysis.py", "geoMap*.csv", true, 2⟩]

/-- The three Trends CSV naming conventions of the repository. -/
def trendsPatterns : List String :=
  ["multiTimeline*.csv", "geoMap*.csv", "relatedQueries*.csv"]

/-- Example timeline for C6: theme A with 60 rows on strictly
increasing dates (days 0 through 59), the first 8 rows of value 10 and
the remaining 52 of value 0.  The dates being pairwise distinct, the
group has exactly one date-sorted order, whatever tie-breaking the sort
applies: 60 rows, total 80, a first-window mean of 10, and a last
window of 52 all-zero rows, so a missing last-window mean. -/
def cagrCounterRows : List ASR.TRow :=
  ((List.range 8).map fun i => ⟨"A", ⟨(i : ℤ), 1⟩, 10⟩)
    ++ ((List.range 52).map fun i => ⟨"A", ⟨((8 + i : ℕ) : ℤ), 1⟩, 0⟩)

/-- Example group for the C6 witness: 30 rows of value 1. -/
def cagrWitnessGroup : List ASR.TRow :=
  List.replicate 30 ⟨"A", ⟨0, 1⟩, 1⟩

/-- Example timeline for the C7 witness: one March row. -/
def peakWitnessRows : List ASR.TRow :=
  [⟨"A", ⟨0, 3⟩, 5⟩]

/-- A 53-entry seasonality vector that numpy allclose deems constant but
that is not exactly constant: the first entry exceeds the remaining 52
entries of 1 by 1e-9, well inside the allclose tolerance around the
mean. -/
def exVec : ASR.Vec := (1 + 1 / 1000000000) :: List.replicate 52 (1 : ℚ)

/-- Two themes carrying that near-constant vector. -/
def exV : List (String × ASR.Vec) := [("A", exVec), ("B", exVec)]

/-- Both themes share the same single-DMA geo set. -/
def exG : List (String × Finset String) := [("A", {"X"}), ("B", {"X"})]

/-! ## Theorems -/

/-- lookup on a list keyed by map: the first hit carries f of the
key. -/
theorem lookup_keyed_map {β : Type} (f : String → β) (l : List String) (x : String) :
    (l.map fun t => (t, f t)).lookup x = if x ∈ l then some (f x) else none := by
  induction l with
  | nil => simp
  | cons a ts ih =>
    by_cases hx : x = a
    · subst hx
      simp [List.lookup_cons]
    · have hbeq : (x == a) = false := beq_eq_false_iff_ne.mpr hx
      simp [List.lookup_cons, hbeq, ih, hx]

/-- lookup on a list keyed by filterMap over distinct intent: the value
of the first hit is f of the key. -/
theorem lookup_keyed_filterMap {β : Type} (f : String → Option β) (l : List String)
    (x : String) :
    (l.filterMap fun t => (f t).map fun c => (t, c)).lookup x
      = if x ∈ l then f x else none := by
  induction l with
  | nil => simp
  | cons a ts ih =>
    rw [List.filterMap_cons]
    by_cases hx : x = a
    · subst hx
      cases h : f x with
      | none =>
        simp only [h, Option.map_none']
        rw [ih]
        by_cases hmem : x ∈ ts <;> simp [hmem, h]
      | some c =>
        simp [h, List.lookup_cons]
    · have hbeq : (x == a) = false := beq_eq_false_iff_ne.mpr hx
      cases h : f a with
      | none =>
        simp only [h, Option.map_none']
        rw [ih]
        by_cases hmem : x ∈ ts <;> simp [hmem, hx]
      | some c =>
        simp only [h, Option.map_some']
        rw [List.lookup_cons]
        simp only [hbeq]
        rw [ih]
        by_cases hmem : x ∈ ts <;> simp [hmem, hx]

/-- C2: For every timeline CSV successfully parsed by load_timeline, the
returned table applies only type coercion and dropping of missing rows:
each value entry that fails numeric coercion becomes 0, each date entry
that fails date coercion is marked missing, exactly the rows with a
missing date are dropped, and the remaining rows are kept sorted by date
with no other validation or filtering. -/
theorem C2_load_timeline_coerce_drop_sort
    (toDate : String → Option Timestamp) (toNum : String → Option ℚ)
    (theme : String) (rows : List ASR.RawRow) :
    (ASR.load_timeline toDate toNum theme (.ok rows)).Perm
        (rows.filterMap fun r => (toDate r.week).map fun d =>
          ASR.TRow.mk theme d ((toNum r.value).getD 0))
      ∧ List.Sorted ASR.dateLe (ASR.load_timeline toDate toNum theme (.ok rows)) := by
  unfold ASR.load_timeline
  by_cases h : rows.isEmpty
  · have : rows = [] := List.isEmpty_iff.mp h
    subst this
    simp
  · simp only [h, if_false]
    have hkept :
        ((rows.map fun r => (theme, toDate r.week, (toNum r.value).getD 0)).filterMap
            fun r => match r.2.1 with
              | some d => some ⟨r.1, d, r.2.2⟩
              | none => none)
          = rows.filterMap fun r => (toDate r.week).map fun d =>
              ASR.TRow.mk theme d ((toNum r.value).getD 0) := by
      rw [List.filterMap_map]
      apply List.filterMap_congr
      intro r _
      simp only [Function.comp_apply]
      cases h' : toDate r.week <;> simp [h']
    rw [hkept]
    exact ⟨List.perm_insertionSort _ _, List.sorted_insertionSort _ _⟩

/-- C3: a raised read or parse exception is caught and the loaders
continue with empty or default data: load_timeline and load_geo of the
strategy report return an empty frame, build_master_frames therefore
proceeds without that theme, and the per-theme loaders of
multi_timeframe_analysis.py and ppc_campaign_analysis.py record a
warning and leave every field of the entry at its initialised default. -/
theorem C3_read_errors_continue_with_defaults
    (toDate : String → Option Timestamp) (toNum : String → Option ℚ)
    (strip : String → String) (selNum : List (String × String) → Option (List ℚ))
    (theme msg m1 m2 m3 : String)
    (folders folders' : List (String × Except String (List ASR.RawRow)
      × Except String (List ASR.RawGeoRow))) :
    ASR.load_timeline toDate toNum theme (.error msg) = []
    ∧ ASR.load_geo strip toNum theme (.error msg) = []
    ∧ ASR.build_master_frames toDate toNum strip
          (folders ++ (theme, .error m1, .error m2) :: folders')
        = ASR.build_master_frames toDate toNum strip (folders ++ folders')
    ∧ MTA.load_timeframe toDate toNum strip
          (some (.error m1)) (some (.error m2)) (some (.error m3))
        = (MTA.defaultEntry,
           ["Error loading timeline: " ++ m1, "Error loading geo data: " ++ m2,
            "Error loading queries: " ++ m3])
    ∧ PPC.load_market selNum strip
          (some (.error m1)) (some (.error m2)) (some (.error m3))
        = (PPC.defaultMarket,
           ["Error loading timeline: " ++ m1, "Error loading queries: " ++ m2,
            "Error loading geo data: " ++ m3]) := by
  refine ⟨rfl, rfl, ?_, rfl, rfl⟩
  unfold ASR.build_master_frames
  simp [ASR.load_timeline, ASR.load_geo]

/-- C4 counterexample: in google_ads_keyword_analysis.py the
GoogleAdsException handler of get_keyword_metrics terminates the process
with exit status 1 instead of continuing with empty or default data. -/
theorem C4_counterexample :
    (@GKA.get_keyword_metrics Unit
        (.error ⟨"req-1", "INVALID_ARGUMENT", [⟨"bad field"⟩]⟩)).2
      = .exitProcess 1
    ∧ (@GKA.get_keyword_metrics Unit
        (.error ⟨"req-1", "INVALID_ARGUMENT", [⟨"bad field"⟩]⟩)).2
      ≠ .ok () := by
  exact ⟨rfl, by simp [GKA.get_keyword_metrics]⟩

/-- C4 amended: every Google Ads API call that raises a
GoogleAdsException catches it, prints its error code and its list of
error messages, and attempts no retry; the dashboard handler
(get_keyword_ideas) then continues with an empty list, while the
handler of google_ads_keyword_analysis.py (get_keyword_metrics)
terminates the process with exit status 1. -/
theorem C4_google_ads_exception_handling {α : Type} (ex : GKA.GoogleAdsErr)
    (max_keywords : Nat) :
    App.get_keyword_ideas max_keywords (.error ex)
        = (("Google Ads API Error: " ++ ex.code_name)
            :: ex.errors.map (fun e => "Error message: " ++ e.message), [])
    ∧ (@GKA.get_keyword_metrics α (.error ex))
        = (("Request with ID \"" ++ ex.request_id ++ "\" failed with status \""
              ++ ex.code_name ++ "\" and includes the following errors:")
            :: ex.errors.map (fun e => "Error with message \"" ++ e.message ++ "\"."),
           .exitProcess 1) := by
  exact ⟨rfl, rfl⟩

/-- C5 counterexample: app.py line 168 reads
Analysis/master_dataframe.csv through a fixed literal path, not through
any of the three Trends folder-naming glob patterns. -/
theorem C5_counterexample :
    (⟨"app.py", "Analysis/master_dataframe.csv", false, 0⟩ : CsvReadSite)
        ∈ csvReadSites
    ∧ "Analysis/master_dataframe.csv" ∉ trendsPatterns := by
  decide

/-- C5 amended: every Trends CSV read locates its input via the fixed
glob conventions and skips a fixed, statically determined number of
header rows at its call site: 2 for multiTimeline in every script,
2 for geoMap in the analysis scripts but 1 in the dashboard, and 3 for
relatedQueries in the dashboard; the one remaining CSV read is the
dashboard reading Analysis/master_dataframe.csv from a fixed literal
path with no skipped rows. -/
theorem C5_read_site_conventions :
    (∀ s ∈ csvReadSites, s.viaGlob = true → s.pattern ∈ trendsPatterns)
    ∧ (∀ s ∈ csvReadSites, s.pattern = "multiTimeline*.csv" → s.skiprows = 2)
    ∧ (∀ s ∈ csvReadSites, s.pattern = "geoMap*.csv" →
        s.skiprows = if s.script = "app.py" then 1 else 2)
    ∧ (∀ s ∈ csvReadSites, s.pattern = "relatedQueries*.csv" →
        s.script = "app.py" ∧ s.skiprows = 3)
    ∧ (∀ s ∈ csvReadSites, s.viaGlob = false →
        s = ⟨"app.py", "Analysis/master_dataframe.csv", false, 0⟩) := by
  decide

/-- Witness for C5_read_site_conventions at the dashboard geoMap site. -/
theorem C5_read_site_conventions_witness :
    (⟨"app.py", "geoMap*.csv", true, 1⟩ : CsvReadSite) ∈ csvReadSites
    ∧ (⟨"app.py", "geoMap*.csv", true, 1⟩ : CsvReadSite).skiprows
        = if (⟨"app.py", "geoMap*.csv", true, 1⟩ : CsvReadSite).script = "app.py"
          then 1 else 2 :=
  ⟨by decide, C5_read_site_conventions.2.2.1 _ (by decide) rfl⟩

/-- C10 counterexample: the result dict returned by
create_expert_campaign carries no status key, so the returned result of
a campaign created from a campaign group does not report the PAUSED
status. -/
theorem C10_counterexample :
    (App.create_expert_campaign "20250101" "20260101" "5426234549"
        ⟨"Premium Ski Markets", 800⟩ (fun _ => "b1") (fun _ => "c1")
        (1, 5)).2.status = none := by
  rfl

/-- C10 amended: every campaign the dashboard creates in the live
account is created with status PAUSED, for both the dedicated Park City
campaign and every campaign created from a campaign group; the Park
City result dict reports that PAUSED status, while the campaign-group
result dict omits the status field. -/
theorem C10_campaigns_created_paused (now endDate cid : String)
    (cfg : App.CampaignConfig) (grp : App.CampaignGroup)
    (cb : ℚ → String) (mc : App.CampaignPayload → String) (ac : Nat × Nat) :
    (App.create_expert_park_city_campaign now endDate cid cfg cb mc).1.status
        = "PAUSED"
    ∧ (App.create_expert_park_city_campaign now endDate cid cfg cb mc).2.status
        = some "PAUSED"
    ∧ (App.create_expert_campaign now endDate cid grp cb mc ac).1.status
        = "PAUSED"
    ∧ (App.create_expert_campaign now endDate cid grp cb mc ac).2.status
        = none := by
  exact ⟨rfl, rfl, rfl, rfl⟩

/-- C9: the momentum and growth-rate computations never divide by zero:
momentum_score and the acceleration classification are computed only
under the strictly-positive 5-year (respectively 2-year) average-volume
guards and otherwise keep their defaults of 0 and stable; and in
generate_comprehensive_strategy a growth_rate is computed only when the
historical 5-year average is strictly positive, markets failing the
guard being omitted from the scoring. -/
theorem C9_momentum_and_growth_guards
    (themes_data : List (String × List (String × MTA.TFEntry)))
    (td : List (String × MTA.TFEntry))
    (trends_data : List (String × List (String × App.DF))) (m : String) :
    (MTA.calculate_momentum_scores themes_data
        = themes_data.map fun p => (p.1, MTA.momentumOf p.2))
    ∧ (¬ (∃ q5, MTA.volumesOf td "5 Year" = some (some q5) ∧ 0 < q5) →
        (MTA.momentumOf td).momentum_score = some 0
          ∧ (MTA.momentumOf td).acceleration = "stable")
    ∧ ((MTA.momentumOf td).acceleration ≠ "stable" →
        (∃ q5, MTA.volumesOf td "5 Year" = some (some q5) ∧ 0 < q5)
          ∧ (∃ q2, MTA.volumesOf td "2 Year" = some (some q2) ∧ 0 < q2))
    ∧ (∀ q5 v1, MTA.volumesOf td "5 Year" = some (some q5) → 0 < q5 →
        MTA.volumesOf td "1 Year" = some v1 →
        (MTA.momentumOf td).momentum_score = v1.map fun q1 => (q1 / q5 - 1) * 100)
    ∧ ((∃ v, (m, v) ∈ App.marketScores trends_data) ↔
        ∃ d, (m, d) ∈ trends_data ∧ (∃ d1, d.lookup "1 Year" = some d1)
          ∧ ∃ d5 h5, d.lookup "5 Year" = some d5 ∧ App.tfAvg d5 = some h5 ∧ 0 < h5)
    ∧ (∀ mk : String × App.MarketScore, mk ∈ App.marketScores trends_data →
        ∃ d d1 d5 h5, (mk.1, d) ∈ trends_data
          ∧ d.lookup "1 Year" = some d1 ∧ d.lookup "5 Year" = some d5
          ∧ App.tfAvg d5 = some h5 ∧ 0 < h5
          ∧ mk.2.growth_rate = (App.tfAvg d1).map fun r => (r / h5 - 1) * 100) := by
  refine ⟨rfl, ?_, ?_, ?_, ?_, ?_⟩
  · intro hneg
    unfold MTA.momentumOf
    cases h1 : MTA.volumesOf td "1 Year" with
    | none =>
      cases MTA.volatilitiesOf td "1 Year" <;> cases MTA.volatilitiesOf td "5 Year" <;>
        exact ⟨rfl, rfl⟩
    | some v1 =>
      cases h5 : MTA.volumesOf td "5 Year" with
      | none =>
        cases MTA.volatilitiesOf td "1 Year" <;> cases MTA.volatilitiesOf td "5 Year" <;>
          exact ⟨rfl, rfl⟩
      | some o5 =>
        cases o5 with
        | none =>
          cases MTA.volatilitiesOf td "1 Year" <;> cases MTA.volatilitiesOf td "5 Year" <;>
            exact ⟨rfl, rfl⟩
        | some q5 =>
          have : ¬ (0 < q5) := fun hq => hneg ⟨q5, h5, hq⟩
          dsimp only
          rw [if_neg this]
          cases MTA.volatilitiesOf td "1 Year" <;> cases MTA.volatilitiesOf td "5 Year" <;>
            exact ⟨rfl, rfl⟩
  · intro hacc
    unfold MTA.momentumOf at hacc
    cases h1 : MTA.volumesOf td "1 Year" with
    | none =>
      rw [h1] at hacc
      cases hw1 : MTA.volatilitiesOf td "1 Year" <;> cases hw2 : MTA.volatilitiesOf td "5 Year" <;>
        rw [hw1, hw2] at hacc <;> simp at hacc
    | some v1 =>
      rw [h1] at hacc
      cases h5 : MTA.volumesOf td "5 Year" with
      | none =>
        rw [h5] at hacc
        cases hw1 : MTA.volatilitiesOf td "1 Year" <;> cases hw2 : MTA.volatilitiesOf td "5 Year" <;>
          rw [hw1, hw2] at hacc <;> simp at hacc
      | some o5 =>
        rw [h5] at hacc
        cases o5 with
        | none =>
          cases hw1 : MTA.volatilitiesOf td "1 Year" <;> cases hw2 : MTA.volatilitiesOf td "5 Year" <;>
            rw [hw1, hw2] at hacc <;> simp at hacc
        | some q5 =>
          dsimp only at hacc
          by_cases hq5 : 0 < q5
          · rw [if_pos hq5] at hacc
            refine ⟨⟨q5, rfl, hq5⟩, ?_⟩
            cases h2 : MTA.volumesOf td "2 Year" with
            | none =>
              rw [h2] at hacc
              cases hw1 : MTA.volatilitiesOf td "1 Year" <;> cases hw2 : MTA.volatilitiesOf td "5 Year" <;>
                rw [hw1, hw2] at hacc <;> simp at hacc
            | some o2 =>
              rw [h2] at hacc
              cases o2 with
              | none =>
                cases hw1 : MTA.volatilitiesOf td "1 Year" <;> cases hw2 : MTA.volatilitiesOf td "5 Year" <;>
                  rw [hw1, hw2] at hacc <;> simp at hacc
              | some q2 =>
                dsimp only at hacc
                by_cases hq2 : 0 < q2
                · exact ⟨q2, rfl, hq2⟩
                · rw [if_neg hq2] at hacc
                  cases hw1 : MTA.volatilitiesOf td "1 Year" <;> cases hw2 : MTA.volatilitiesOf td "5 Year" <;>
                    rw [hw1, hw2] at hacc <;> simp at hacc
          · rw [if_neg hq5] at hacc
            cases hw1 : MTA.volatilitiesOf td "1 Year" <;> cases hw2 : MTA.volatilitiesOf td "5 Year" <;>
              rw [hw1, hw2] at hacc <;> simp at hacc
  · intro q5 v1 h5 hq5 h1
    unfold MTA.momentumOf
    rw [h1, h5]
    dsimp only
    rw [if_pos hq5]
    cases MTA.volatilitiesOf td "1 Year" <;> cases MTA.volatilitiesOf td "5 Year" <;> rfl
  · constructor
    · rintro ⟨v, hv⟩
      rw [App.marketScores, List.mem_filterMap] at hv
      obtain ⟨⟨m', d⟩, hd, hok⟩ := hv
      cases hl1 : d.lookup "1 Year" with
      | none => rw [hl1] at hok; cases d.lookup "5 Year" <;> simp at hok
      | some d1 =>
        rw [hl1] at hok
        cases hl5 : d.lookup "5 Year" with
        | none => rw [hl5] at hok; simp at hok
        | some d5 =>
          rw [hl5] at hok
          dsimp only at hok
          unfold App.scoreOf at hok
          dsimp only at hok
          cases ha5 : App.tfAvg d5 with
          | none => rw [ha5] at hok; simp at hok
          | some h5 =>
            rw [ha5] at hok
            dsimp only at hok
            by_cases hpos : 0 < h5
            · rw [if_pos hpos] at hok
              simp only [Option.map_some', Option.some.injEq, Prod.mk.injEq] at hok
              exact ⟨d, hok.1 ▸ hd, ⟨d1, hl1⟩, d5, h5, hl5, ha5, hpos⟩
            · rw [if_neg hpos] at hok; simp at hok
    · rintro ⟨d, hd, ⟨d1, hl1⟩, d5, h5, hl5, ha5, hpos⟩
      refine ⟨⟨(App.tfAvg d1).map fun r => (r / h5 - 1) * 100, App.tfAvg d1,
        ((App.tfAvg d1).map fun r => (r / h5 - 1) * 100).bind fun g =>
          (App.tfAvg d1).map fun r => g * r / 100⟩, ?_⟩
      rw [App.marketScores, List.mem_filterMap]
      refine ⟨(m, d), hd, ?_⟩
      rw [hl1, hl5]
      dsimp only
      unfold App.scoreOf
      dsimp only
      rw [ha5]
      dsimp only
      rw [if_pos hpos]
      rfl
  · rintro ⟨m', v⟩ hv
    rw [App.marketScores, List.mem_filterMap] at hv
    obtain ⟨⟨m'', d⟩, hd, hok⟩ := hv
    cases hl1 : d.lookup "1 Year" with
    | none => rw [hl1] at hok; cases d.lookup "5 Year" <;> simp at hok
    | some d1 =>
      rw [hl1] at hok
      cases hl5 : d.lookup "5 Year" with
      | none => rw [hl5] at hok; simp at hok
      | some d5 =>
        rw [hl5] at hok
        dsimp only at hok
        unfold App.scoreOf at hok
        dsimp only at hok
        cases ha5 : App.tfAvg d5 with
        | none => rw [ha5] at hok; simp at hok
        | some h5 =>
          rw [ha5] at hok
          dsimp only at hok
          by_cases hpos : 0 < h5
          · rw [if_pos hpos] at hok
            simp only [Option.map_some', Option.some.injEq, Prod.mk.injEq] at hok
            obtain ⟨hm, hv⟩ := hok
            subst hm
            refine ⟨d, d1, d5, h5, hd, hl1, hl5, ha5, hpos, ?_⟩
            rw [← hv]
          · rw [if_neg hpos] at hok; simp at hok

/-- Witness for C9_momentum_and_growth_guards: a theme whose 5-year and
1-year averages are 4 and 6 gets momentum score (6/4 - 1)*100, and a
market with historical average 2 enters the scoring. -/
theorem C9_momentum_and_growth_guards_witness :
    ((MTA.momentumOf [("5 Year", { MTA.defaultEntry with avg_volume := some 4 }),
        ("1 Year", { MTA.defaultEntry with avg_volume := some 6 })]).momentum_score
      = (some (6 : ℚ)).map fun q1 => (q1 / 4 - 1) * 100)
    ∧ ∃ v, ("PC", v) ∈ App.marketScores
        [("PC", [("1 Year", App.DF.mk [[some 0], [some 6]]),
                 ("5 Year", App.DF.mk [[some 1], [some 2]])])] := by
  constructor
  · exact (C9_momentum_and_growth_guards [] _ [] "PC").2.2.2.1 4 (some 6) rfl
      (by norm_num) rfl
  · apply (C9_momentum_and_growth_guards [] [] _ "PC").2.2.2.2.1.mpr
    refine ⟨_, List.mem_cons_self _ _, ⟨_, rfl⟩, _, 2, rfl, ?_, by norm_num⟩
    simp [App.tfAvg, colMean, qmean, List.filterMap_cons]

/-- A list all of whose ordered pairs satisfy r is sorted by r. -/
theorem sorted_of_forall_pairs {α : Type} {r : α → α → Prop} (l : List α)
    (h : ∀ a ∈ l, ∀ b ∈ l, r a b) : List.Sorted r l := by
  rw [List.Sorted, List.pairwise_iff_forall_sublist]
  intro a b hs
  exact h a (hs.subset (by simp)) b (hs.subset (by simp))

/-- dedup of a nonempty constant list. -/
theorem dedup_replicate_succ {α : Type} [DecidableEq α] (a : α) (n : Nat) :
    (List.replicate (n + 1) a).dedup = [a] := by
  induction n with
  | zero => simp
  | succ k ih =>
    have hstep : List.replicate (k + 1 + 1) a = a :: List.replicate (k + 1) a := rfl
    rw [hstep, List.dedup_cons_of_mem (by simp [List.mem_replicate]), ih]

/-- The zero-excluded mean of a block of equal nonzero values followed
by a block of zeros. -/
theorem nzMean_rep_pos_zero (th : String) (d : Timestamp) (v : ℚ) (n m : Nat)
    (hv : v ≠ 0) :
    ASR.nzMean (List.replicate (n + 1) ⟨th, d, v⟩ ++ List.replicate m ⟨th, d, (0 : ℚ)⟩)
      = some v := by
  unfold ASR.nzMean colMean qmean
  rw [List.map_append, List.map_replicate, List.map_replicate]
  dsimp only
  rw [if_neg hv, if_pos rfl]
  rw [List.filterMap_append, List.filterMap_replicate, List.filterMap_replicate]
  dsimp only [id]
  rw [List.append_nil]
  have hne : (List.replicate (n + 1) v).isEmpty = false := by
    simp [List.isEmpty_iff]
  rw [hne]
  simp only [Bool.false_eq_true, if_false, List.sum_replicate, List.length_replicate,
    nsmul_eq_mul, Option.some.injEq]
  have : ((n : ℚ) + 1) ≠ 0 := by positivity
  field_simp

/-- The zero-excluded mean of an all-zero block is missing. -/
theorem nzMean_rep_zero (th : String) (d : Timestamp) (m : Nat) :
    ASR.nzMean (List.replicate m ⟨th, d, (0 : ℚ)⟩) = none := by
  unfold ASR.nzMean colMean
  rw [List.map_replicate]
  dsimp only
  rw [if_pos rfl, List.filterMap_replicate]
  rfl


/-- The zero-excluded mean depends only on the value column. -/
theorem nzMean_congr (w w' : List ASR.TRow)
    (h : w.map ASR.TRow.value = w'.map ASR.TRow.value) :
    ASR.nzMean w = ASR.nzMean w' := by
  have key : ∀ u : List ASR.TRow,
      (u.map fun r => if r.value = 0 then none else some r.value)
        = (u.map ASR.TRow.value).map fun v => if v = 0 then none else some v := by
    intro u
    rw [List.map_map]
    rfl
  unfold ASR.nzMean
  rw [key w, key w', h]

/-- A permutation of a list with strictly increasing dates that is
itself sorted by date is that list: on tie-free groups every conforming
date sort returns the same order. -/
theorem sorted_perm_eq_of_strict :
    ∀ (l₂ l₁ : List ASR.TRow), l₁.Perm l₂ → List.Sorted ASR.dateLe l₁ →
      List.Pairwise (fun a b : ASR.TRow => a.date.days < b.date.days) l₂ →
      l₁ = l₂ := by
  intro l₂
  induction l₂ with
  | nil =>
    intro l₁ hp _ _
    exact hp.eq_nil
  | cons b t₂ ih =>
    intro l₁ hp h₁ h₂
    cases l₁ with
    | nil => exact absurd hp.symm.eq_nil (List.cons_ne_nil b t₂)
    | cons a t₁ =>
      obtain ⟨hb2, hstrict⟩ := List.pairwise_cons.mp h₂
      obtain ⟨ha1, hsorted1⟩ := List.sorted_cons.mp h₁
      have hab : a = b := by
        by_contra hne
        have haT2 : a ∈ t₂ := by
          rcases List.mem_cons.mp (hp.subset (List.mem_cons_self a t₁)) with h | h
          · exact absurd h hne
          · exact h
        have hbT1 : b ∈ t₁ := by
          rcases List.mem_cons.mp (hp.symm.subset (List.mem_cons_self b t₂)) with h | h
          · exact absurd h.symm hne
          · exact h
        exact absurd (hb2 a haT2) (not_lt.mpr (ha1 b hbT1))
      subst hab
      rw [ih t₁ hp.cons_inv hsorted1 hstrict]

/-- The facts about the C6 example timeline: it is its own theme-A
group, its dates are strictly increasing, it satisfies every
precondition the claim states, yet the per-group body skips it (its
last window is all zeros), and theme A is its only theme. -/
theorem cagrCounter_facts :
    ASR.themeGroup cagrCounterRows "A" = cagrCounterRows
    ∧ List.Pairwise (fun a b : ASR.TRow => a.date.days < b.date.days) cagrCounterRows
    ∧ ASR.cagrClaimPre cagrCounterRows
    ∧ ASR.cagrOfSorted cagrCounterRows = none
    ∧ ASR.timeThemes cagrCounterRows = ["A"] := by
  have hgroup : ASR.themeGroup cagrCounterRows "A" = cagrCounterRows := by
    unfold ASR.themeGroup
    apply List.filter_eq_self.mpr
    intro r hr
    unfold cagrCounterRows at hr
    rcases List.mem_append.mp hr with h | h <;>
      · obtain ⟨i, -, rfl⟩ := List.mem_map.mp h
        exact decide_eq_true rfl
  have hstrict : List.Pairwise (fun a b : ASR.TRow => a.date.days < b.date.days)
      cagrCounterRows := by
    unfold cagrCounterRows
    rw [List.pairwise_append]
    refine ⟨?_, ?_, ?_⟩
    · rw [List.pairwise_map]
      exact (List.pairwise_lt_range 8).imp fun h => by
        dsimp only
        omega
    · rw [List.pairwise_map]
      exact (List.pairwise_lt_range 52).imp fun h => by
        dsimp only
        omega
    · intro a ha b hb
      obtain ⟨i, hi, rfl⟩ := List.mem_map.mp ha
      obtain ⟨j, hj, rfl⟩ := List.mem_map.mp hb
      rw [List.mem_range] at hi
      dsimp only
      omega
  have hlen : cagrCounterRows.length = 60 := by
    unfold cagrCounterRows
    rw [List.length_append, List.length_map, List.length_map,
      List.length_range, List.length_range]
  have hvals : cagrCounterRows.map ASR.TRow.value
      = List.replicate 8 (10 : ℚ) ++ List.replicate 52 0 := by
    unfold cagrCounterRows
    rw [List.map_append, List.map_map, List.map_map,
      show (ASR.TRow.value ∘ fun i : ℕ => (⟨"A", ⟨(i : ℤ), 1⟩, 10⟩ : ASR.TRow))
        = fun _ : ℕ => (10 : ℚ) from rfl,
      show (ASR.TRow.value ∘ fun i : ℕ => (⟨"A", ⟨((8 + i : ℕ) : ℤ), 1⟩, 0⟩ : ASR.TRow))
        = fun _ : ℕ => (0 : ℚ) from rfl,
      List.map_const', List.map_const', List.length_range, List.length_range]
  have hsum : (cagrCounterRows.map ASR.TRow.value).sum = 80 := by
    rw [hvals, List.sum_append, List.sum_replicate, List.sum_replicate]
    norm_num [nsmul_eq_mul]
  have hwin : ASR.windowLen cagrCounterRows = 52 := by
    unfold ASR.windowLen
    rw [hlen]
    decide
  have hfirst : ASR.firstMean cagrCounterRows = some 10 := by
    unfold ASR.firstMean
    rw [hwin]
    unfold cagrCounterRows
    rw [List.take_append_eq_append_take,
      List.take_all_of_le (by rw [List.length_map, List.length_range]; norm_num),
      List.length_map, List.length_range,
      show (52 - 8 : ℕ) = 44 from rfl,
      ← List.map_take, List.take_range,
      show (44 ⊓ 52 : ℕ) = 44 from by decide]
    rw [nzMean_congr
        (((List.range 8).map fun i : ℕ => (⟨"A", ⟨(i : ℤ), 1⟩, 10⟩ : ASR.TRow))
          ++ (List.range 44).map fun i : ℕ => (⟨"A", ⟨((8 + i : ℕ) : ℤ), 1⟩, 0⟩ : ASR.TRow))
        (List.replicate 8 (⟨"A", ⟨0, 1⟩, 10⟩ : ASR.TRow)
          ++ List.replicate 44 (⟨"A", ⟨0, 1⟩, (0 : ℚ)⟩ : ASR.TRow)) rfl]
    have h := nzMean_rep_pos_zero "A" ⟨0, 1⟩ 10 7 44 (by norm_num)
    norm_num at h
    exact h
  have hlast : ASR.lastMean cagrCounterRows = none := by
    unfold ASR.lastMean
    rw [hwin, hlen, show (60 - 52 : ℕ) = 8 from rfl]
    unfold cagrCounterRows
    rw [List.drop_append_eq_append_drop,
      List.drop_eq_nil_of_le (by rw [List.length_map, List.length_range]),
      List.length_map, List.length_range,
      show (8 - 8 : ℕ) = 0 from rfl, List.drop_zero, List.nil_append]
    rw [nzMean_congr
        ((List.range 52).map fun i : ℕ => (⟨"A", ⟨((8 + i : ℕ) : ℤ), 1⟩, 0⟩ : ASR.TRow))
        (List.replicate 52 (⟨"A", ⟨0, 1⟩, (0 : ℚ)⟩ : ASR.TRow)) rfl]
    exact nzMean_rep_zero "A" ⟨0, 1⟩ 52
  have hguard : ¬ ((cagrCounterRows.map ASR.TRow.value).sum = 0
      ∨ cagrCounterRows.length < 30) := by
    rw [hsum, hlen]
    norm_num
  refine ⟨hgroup, hstrict, ⟨?_, ?_, 10, hfirst, by norm_num⟩, ?_, ?_⟩
  · rw [hlen]
    norm_num
  · rw [hsum]
    norm_num
  · unfold ASR.cagrOfSorted
    rw [if_neg hguard, hfirst, hlast]
  · unfold ASR.timeThemes cagrCounterRows
    rw [List.map_append, List.map_map, List.map_map,
      show (ASR.TRow.theme ∘ fun i : ℕ => (⟨"A", ⟨(i : ℤ), 1⟩, 10⟩ : ASR.TRow))
        = fun _ : ℕ => "A" from rfl,
      show (ASR.TRow.theme ∘ fun i : ℕ => (⟨"A", ⟨((8 + i : ℕ) : ℤ), 1⟩, 0⟩ : ASR.TRow))
        = fun _ : ℕ => "A" from rfl,
      List.map_const', List.map_const', List.length_range, List.length_range,
      ← List.replicate_add, show (8 + 52 : ℕ) = 59 + 1 from rfl]
    exact dedup_replicate_succ "A" 59

/-- C6 counterexample: the theme-A group of cagrCounterRows has
pairwise-distinct, strictly increasing dates - so every conforming
date sort returns it unchanged - and it satisfies every precondition
the claim states (60 rows, total 80, first-window mean 10), yet
compute_cagr omits the theme, because the last-window mean is missing
and the code also requires that. -/
theorem C6_counterexample :
    List.Pairwise (fun a b : ASR.TRow => a.date.days < b.date.days) cagrCounterRows
    ∧ ASR.cagrClaimPre (ASR.dateSort (ASR.themeGroup cagrCounterRows "A"))
    ∧ (ASR.compute_cagr ASR.dateSort cagrCounterRows).lookup "A" = none := by
  obtain ⟨hgroup, hstrict, hpre, hnone, hthemes⟩ := cagrCounter_facts
  have hsortedLe : List.Sorted ASR.dateLe cagrCounterRows :=
    hstrict.imp fun h => le_of_lt h
  have hds : ASR.dateSort cagrCounterRows = cagrCounterRows :=
    List.Sorted.insertionSort_eq hsortedLe
  refine ⟨hstrict, ?_, ?_⟩
  · rw [hgroup, hds]
    exact hpre
  · unfold ASR.compute_cagr
    rw [hthemes, List.filterMap_cons, hgroup, hds, hnone]
    rfl

/-- The C6 counterexample does not depend on the tie order of the sort:
the dates of cagrCounterRows being strictly increasing, every function
satisfying the sort_values contract makes compute_cagr omit theme A. -/
theorem cagrCounter_any_sort (sortv : List ASR.TRow → List ASR.TRow)
    (hs : ASR.IsDateSort sortv) :
    (ASR.compute_cagr sortv cagrCounterRows).lookup "A" = none := by
  obtain ⟨hgroup, hstrict, -, hnone, hthemes⟩ := cagrCounter_facts
  have hforced : sortv cagrCounterRows = cagrCounterRows :=
    sorted_perm_eq_of_strict cagrCounterRows (sortv cagrCounterRows)
      (hs cagrCounterRows).1 (hs cagrCounterRows).2 hstrict
  unfold ASR.compute_cagr
  rw [hthemes, List.filterMap_cons, hgroup, hforced, hnone]
  rfl

/-- C6 amended: for any realisation of the unstable per-group
sort_values (any function returning a date-sorted permutation of the
group, the order among tied dates being the sort's choice),
compute_cagr carries exactly the themes whose sorted group has at least
30 rows, a nonzero value total, a first-window mean that is neither
missing nor zero, and a last-window mean that is not missing (zeros
being excluded from the window means, the windows being the first and
last min(52, n) rows of the sorted group); each such theme maps to
(last_mean / first_mean) raised to (1 / years) minus 1 with
years = max(elapsed days / 365.25, 0.1), every other theme is omitted,
and the row count and value total tested by the guards agree with the
unsorted group's. -/
theorem C6_compute_cagr_characterisation (sortv : List ASR.TRow → List ASR.TRow)
    (hs : ASR.IsDateSort sortv) (mt : List ASR.TRow) (t : String) :
    ((ASR.compute_cagr sortv mt).lookup t
        = if t ∈ ASR.timeThemes mt
          then ASR.cagrOfSorted (sortv (ASR.themeGroup mt t)) else none)
    ∧ (∀ g, ((sortv g).map ASR.TRow.value).sum = (g.map ASR.TRow.value).sum
        ∧ (sortv g).length = g.length)
    ∧ (∀ g, ASR.cagrPre (sortv g) →
        ASR.cagrOfSorted (sortv g) = some (ASR.cagrFormula (sortv g)))
    ∧ (∀ g, ¬ ASR.cagrPre (sortv g) → ASR.cagrOfSorted (sortv g) = none) := by
  refine ⟨?_, ?_, ?_, ?_⟩
  · exact lookup_keyed_filterMap
      (fun u => ASR.cagrOfSorted (sortv (ASR.themeGroup mt u))) (ASR.timeThemes mt) t
  · intro g
    exact ⟨((hs g).1.map ASR.TRow.value).sum_eq, (hs g).1.length_eq⟩
  · intro g hpre
    obtain ⟨hguard, ⟨fm, hfm, hfm0⟩, hlastS⟩ := hpre
    obtain ⟨lm, hlm⟩ := Option.isSome_iff_exists.mp hlastS
    unfold ASR.cagrOfSorted
    rw [if_neg hguard, hfm, hlm]
    dsimp only
    rw [if_neg hfm0]
    unfold ASR.cagrFormula
    rw [hfm, hlm]
    rfl
  · intro g hpre
    unfold ASR.cagrOfSorted
    by_cases hguard : ((sortv g).map ASR.TRow.value).sum = 0 ∨ (sortv g).length < 30
    · rw [if_pos hguard]
    · rw [if_neg hguard]
      cases hfm : ASR.firstMean (sortv g) with
      | none => rfl
      | some fm =>
        cases hlm : ASR.lastMean (sortv g) with
        | none => rfl
        | some lm =>
          dsimp only
          by_cases hz : fm = 0
          · rw [if_pos hz]
          · exact absurd ⟨hguard, ⟨fm, hfm, hz⟩, by rw [hlm]; rfl⟩ hpre

/-- Witness for C6_compute_cagr_characterisation: insertion sort
satisfies the sort_values contract, and the 30-row constant group
passes the guards and is assigned the CAGR formula. -/
theorem C6_compute_cagr_characterisation_witness :
    ASR.IsDateSort ASR.dateSort
    ∧ ASR.cagrPre (ASR.dateSort cagrWitnessGroup)
    ∧ ASR.cagrOfSorted (ASR.dateSort cagrWitnessGroup)
        = some (ASR.cagrFormula (ASR.dateSort cagrWitnessGroup)) := by
  have hds : ASR.IsDateSort ASR.dateSort := fun g =>
    ⟨List.perm_insertionSort _ _, List.sorted_insertionSort _ _⟩
  have hsorted : List.Sorted ASR.dateLe cagrWitnessGroup := by
    apply sorted_of_forall_pairs
    intro a ha b hb
    have hda := (List.mem_replicate.mp ha).2
    have hdb := (List.mem_replicate.mp hb).2
    simp [ASR.dateLe, hda, hdb]
  have hsort_eq : ASR.dateSort cagrWitnessGroup = cagrWitnessGroup :=
    List.Sorted.insertionSort_eq hsorted
  have hwin : ASR.windowLen cagrWitnessGroup = 30 := by
    unfold ASR.windowLen cagrWitnessGroup
    rw [List.length_replicate]
    decide
  have hone : ASR.nzMean (List.replicate 30 (ASR.TRow.mk "A" ⟨0, 1⟩ 1)) = some 1 := by
    have h := nzMean_rep_pos_zero "A" ⟨0, 1⟩ 1 29 0 (by norm_num)
    norm_num at h
    exact h
  have hfirst : ASR.firstMean cagrWitnessGroup = some 1 := by
    unfold ASR.firstMean
    rw [hwin]
    unfold cagrWitnessGroup
    rw [List.take_replicate]
    norm_num [Nat.min_def]
    exact hone
  have hlast : ASR.lastMean cagrWitnessGroup = some 1 := by
    unfold ASR.lastMean
    rw [hwin]
    unfold cagrWitnessGroup
    rw [List.length_replicate]
    norm_num
    exact hone
  have hpre : ASR.cagrPre (ASR.dateSort cagrWitnessGroup) := by
    rw [hsort_eq]
    refine ⟨?_, ⟨1, hfirst, by norm_num⟩, ?_⟩
    · unfold cagrWitnessGroup
      rw [List.map_replicate, List.sum_replicate, List.length_replicate]
      norm_num
    · rw [hlast]
      rfl
  exact ⟨hds, hpre,
    (C6_compute_cagr_characterisation ASR.dateSort hds [] "A").2.2.1 cagrWitnessGroup hpre⟩

/-- C7: for every theme of a non-empty master timeline,
compute_peak_months returns the names of the calendar months with the
highest mean value for that theme: the grouped monthly means are sorted
descending and the top two months are named, so at most two names per
theme, fewer exactly when the theme spans fewer than two distinct
months, and every named month has a mean at least that of every unnamed
month. -/
theorem C7_compute_peak_months (mt : List ASR.TRow) (t : String) (hne : mt ≠ [])
    (ht : t ∈ ASR.timeThemes mt) :
    ∃ ms : List Nat,
      (ASR.compute_peak_months mt).lookup t = some (ms.map ASR.month_name)
      ∧ ms.length = min 2 (ASR.monthsOf (ASR.themeGroup mt t)).length
      ∧ (∀ m ∈ ms, m ∈ ASR.monthsOf (ASR.themeGroup mt t))
      ∧ ms.Nodup
      ∧ (∀ m ∈ ms, ∀ m' ∈ ASR.monthsOf (ASR.themeGroup mt t), m' ∉ ms →
          ASR.monthMean (ASR.themeGroup mt t) m'
            ≤ ASR.monthMean (ASR.themeGroup mt t) m) := by
  have hOK : (ASR.compute_peak_months mt).lookup t
      = some (ASR.peakMonthsOf (ASR.themeGroup mt t)) := by
    unfold ASR.compute_peak_months
    rw [if_neg (by simpa using hne)]
    rw [lookup_keyed_map (fun t => ASR.peakMonthsOf (ASR.themeGroup mt t))
      (ASR.timeThemes mt) t, if_pos ht]
  have hperm : ((ASR.monthsOf (ASR.themeGroup mt t)).insertionSort
        (ASR.monthGe (ASR.themeGroup mt t))).Perm (ASR.monthsOf (ASR.themeGroup mt t)) :=
    List.perm_insertionSort _ _
  have hsorted : List.Sorted (ASR.monthGe (ASR.themeGroup mt t))
      ((ASR.monthsOf (ASR.themeGroup mt t)).insertionSort
        (ASR.monthGe (ASR.themeGroup mt t))) :=
    List.sorted_insertionSort _ _
  refine ⟨((ASR.monthsOf (ASR.themeGroup mt t)).insertionSort
      (ASR.monthGe (ASR.themeGroup mt t))).take 2, ?_, ?_, ?_, ?_, ?_⟩
  · rw [hOK]
    rfl
  · rw [List.length_take, hperm.length_eq]
  · intro m hm
    exact hperm.mem_iff.mp ((List.take_sublist 2 _).subset hm)
  · exact (List.take_sublist 2 _).nodup (hperm.nodup_iff.mpr (List.nodup_dedup _))
  · intro m hm m' hm' hnot
    have hsplit := (List.take_append_drop 2 ((ASR.monthsOf (ASR.themeGroup mt t)).insertionSort
      (ASR.monthGe (ASR.themeGroup mt t)))).symm
    have hpw := hsorted
    rw [List.Sorted, hsplit, List.pairwise_append] at hpw
    have hm'srt := hperm.mem_iff.mpr hm'
    have hm'drop : m' ∈ ((ASR.monthsOf (ASR.themeGroup mt t)).insertionSort
        (ASR.monthGe (ASR.themeGroup mt t))).drop 2 := by
      rcases List.mem_append.mp (hsplit ▸ hm'srt) with h | h
      · exact absurd h hnot
      · exact h
    exact hpw.2.2 m hm m' hm'drop

/-- Witness for C7_compute_peak_months at a one-row March timeline. -/
theorem C7_compute_peak_months_witness :
    peakWitnessRows ≠ []
    ∧ "A" ∈ ASR.timeThemes peakWitnessRows
    ∧ ∃ ms : List Nat,
        (ASR.compute_peak_months peakWitnessRows).lookup "A"
          = some (ms.map ASR.month_name)
        ∧ ms.length = min 2 (ASR.monthsOf (ASR.themeGroup peakWitnessRows "A")).length
        ∧ (∀ m ∈ ms, m ∈ ASR.monthsOf (ASR.themeGroup peakWitnessRows "A"))
        ∧ ms.Nodup
        ∧ (∀ m ∈ ms, ∀ m' ∈ ASR.monthsOf (ASR.themeGroup peakWitnessRows "A"),
            m' ∉ ms → ASR.monthMean (ASR.themeGroup peakWitnessRows "A") m'
              ≤ ASR.monthMean (ASR.themeGroup peakWitnessRows "A") m) := by
  have h1 : peakWitnessRows ≠ [] := by simp [peakWitnessRows]
  have h2 : "A" ∈ ASR.timeThemes peakWitnessRows := by
    simp [ASR.timeThemes, peakWitnessRows]
  exact ⟨h1, h2, C7_compute_peak_months peakWitnessRows "A" h1 h2⟩

/-- Unfolding equation of bfs on the empty queue. -/
theorem bfs_nil (nbrs : String → List String) (univ visited comp : List String) :
    ASR.bfs nbrs univ [] visited comp = (comp, visited) := by
  rw [ASR.bfs]

/-- Unfolding equation of bfs on a non-empty queue. -/
theorem bfs_cons (nbrs : String → List String) (univ : List String) (cur : String)
    (rest visited comp : List String) :
    ASR.bfs nbrs univ (cur :: rest) visited comp
      = ASR.bfs nbrs univ
          (rest ++ ((nbrs cur).filter fun n =>
            decide (n ∉ visited) && decide (n ∈ univ)).dedup)
          (visited ++ ((nbrs cur).filter fun n =>
            decide (n ∉ visited) && decide (n ∈ univ)).dedup)
          (comp ++ [cur]) := by
  rw [ASR.bfs]

/-- Master invariant of the breadth-first search of build_clusters.
From a consistent intermediate state the search returns a component C
and visited set W with: W is V0 together with C; C is duplicate-free;
C absorbs the partial component and queue; every element of C satisfies
any predicate R that holds on the partial component and queue and is
closed under adjacency within univ; C is adjacency-closed into W within
univ; and C avoids V0. -/
theorem bfs_master (nbrs : String → List String) (univ : List String)
    (R : String → Prop) (V0 : List String)
    (hR : ∀ x y, R x → y ∈ nbrs x → y ∈ univ → R y) :
    ∀ queue visited comp,
    (∀ x ∈ queue, x ∈ visited) →
    (∀ x ∈ comp, x ∈ visited) →
    (∀ x ∈ comp, ∀ y ∈ nbrs x, y ∈ univ → y ∈ visited) →
    (comp ++ queue).Nodup →
    (∀ x, x ∈ visited ↔ x ∈ V0 ∨ x ∈ comp ∨ x ∈ queue) →
    (∀ x ∈ comp ++ queue, R x) →
    (∀ x ∈ comp ++ queue, x ∉ V0) →
    (∀ x, x ∈ (ASR.bfs nbrs univ queue visited comp).2 ↔
        x ∈ V0 ∨ x ∈ (ASR.bfs nbrs univ queue visited comp).1)
    ∧ (ASR.bfs nbrs univ queue visited comp).1.Nodup
    ∧ (∀ x ∈ comp ++ queue, x ∈ (ASR.bfs nbrs univ queue visited comp).1)
    ∧ (∀ x ∈ (ASR.bfs nbrs univ queue visited comp).1, R x)
    ∧ (∀ x ∈ (ASR.bfs nbrs univ queue visited comp).1, ∀ y ∈ nbrs x, y ∈ univ →
        y ∈ (ASR.bfs nbrs univ queue visited comp).2)
    ∧ (∀ x ∈ (ASR.bfs nbrs univ queue visited comp).1, x ∉ V0) := by
  intro queue visited comp
  induction queue, visited, comp using ASR.bfs.induct nbrs univ with
  | case1 visited comp =>
    intro h1 h2 h3 h4 h5 h6 h7
    rw [bfs_nil]
    refine ⟨?_, ?_, ?_, ?_, ?_, ?_⟩
    · intro x
      have := h5 x
      simpa using this
    · simpa using h4
    · intro x hx
      simpa using hx
    · intro x hx
      exact h6 x (by simpa using hx)
    · exact h3
    · intro x hx
      exact h7 x (by simpa using hx)
  | case2 visited comp cur rest F ih =>
    intro h1 h2 h3 h4 h5 h6 h7
    have hF : F = ((nbrs cur).filter fun n =>
      decide (n ∉ visited) && decide (n ∈ univ)).dedup := rfl
    have hfreshm : ∀ n, n ∈ F ↔ n ∈ nbrs cur ∧ n ∉ visited ∧ n ∈ univ := by
      intro n
      rw [hF]
      simp [List.mem_dedup, List.mem_filter]
    have hcur_vis : cur ∈ visited := h1 cur (by simp)
    have hcurR : R cur := h6 cur (by simp)
    have hV0vis : ∀ x ∈ V0, x ∈ visited := fun x hx => (h5 x).mpr (Or.inl hx)
    -- maintained invariants at the recursive state
    have h1' : ∀ x ∈ rest ++ F, x ∈ visited ++ F := by
      intro x hx
      rcases List.mem_append.mp hx with h | h
      · exact List.mem_append.mpr (Or.inl (h1 x (by simp [h])))
      · exact List.mem_append.mpr (Or.inr h)
    have h2' : ∀ x ∈ comp ++ [cur], x ∈ visited ++ F := by
      intro x hx
      rcases List.mem_append.mp hx with h | h
      · exact List.mem_append.mpr (Or.inl (h2 x h))
      · simp only [List.mem_singleton] at h
        exact List.mem_append.mpr (Or.inl (h ▸ hcur_vis))
    have h3' : ∀ x ∈ comp ++ [cur], ∀ y ∈ nbrs x, y ∈ univ → y ∈ visited ++ F := by
      intro x hx y hy hyu
      rcases List.mem_append.mp hx with h | h
      · exact List.mem_append.mpr (Or.inl (h3 x h y hy hyu))
      · simp only [List.mem_singleton] at h
        subst h
        by_cases hv : y ∈ visited
        · exact List.mem_append.mpr (Or.inl hv)
        · exact List.mem_append.mpr (Or.inr ((hfreshm y).mpr ⟨hy, hv, hyu⟩))
    have h4' : ((comp ++ [cur]) ++ (rest ++ F)).Nodup := by
      have hassoc : (comp ++ [cur]) ++ (rest ++ F) = (comp ++ cur :: rest) ++ F := by
        simp
      rw [hassoc, List.nodup_append]
      refine ⟨h4, hF ▸ List.nodup_dedup _, ?_⟩
      intro a ha haF
      have hav : a ∈ visited := by
        rcases List.mem_append.mp ha with h | h
        · exact h2 a h
        · exact h1 a h
      exact ((hfreshm a).mp haF).2.1 hav
    have h5' : ∀ x, x ∈ visited ++ F ↔ x ∈ V0 ∨ x ∈ comp ++ [cur] ∨ x ∈ rest ++ F := by
      intro x
      constructor
      · intro hx
        rcases List.mem_append.mp hx with h | h
        · rcases (h5 x).mp h with h' | h' | h'
          · exact Or.inl h'
          · exact Or.inr (Or.inl (List.mem_append.mpr (Or.inl h')))
          · rcases List.mem_cons.mp h' with h'' | h''
            · exact Or.inr (Or.inl (List.mem_append.mpr (Or.inr (by simp [h'']))))
            · exact Or.inr (Or.inr (List.mem_append.mpr (Or.inl h'')))
        · exact Or.inr (Or.inr (List.mem_append.mpr (Or.inr h)))
      · intro hx
        rcases hx with h | h | h
        · exact List.mem_append.mpr (Or.inl (hV0vis x h))
        · rcases List.mem_append.mp h with h' | h'
          · exact List.mem_append.mpr (Or.inl (h2 x h'))
          · simp only [List.mem_singleton] at h'
            exact List.mem_append.mpr (Or.inl (h' ▸ hcur_vis))
        · rcases List.mem_append.mp h with h' | h'
          · exact List.mem_append.mpr (Or.inl (h1 x (by simp [h'])))
          · exact List.mem_append.mpr (Or.inr h')
    have h6' : ∀ x ∈ (comp ++ [cur]) ++ (rest ++ F), R x := by
      intro x hx
      rcases List.mem_append.mp hx with h | h
      · rcases List.mem_append.mp h with h' | h'
        · exact h6 x (by simp [h'])
        · simp only [List.mem_singleton] at h'
          exact h' ▸ hcurR
      · rcases List.mem_append.mp h with h' | h'
        · exact h6 x (by simp [h'])
        · have := (hfreshm x).mp h'
          exact hR cur x hcurR this.1 this.2.2
    have h7' : ∀ x ∈ (comp ++ [cur]) ++ (rest ++ F), x ∉ V0 := by
      intro x hx
      rcases List.mem_append.mp hx with h | h
      · rcases List.mem_append.mp h with h' | h'
        · exact h7 x (by simp [h'])
        · simp only [List.mem_singleton] at h'
          exact h' ▸ h7 cur (by simp)
      · rcases List.mem_append.mp h with h' | h'
        · exact h7 x (by simp [h'])
        · intro hxV0
          exact ((hfreshm x).mp h').2.1 (hV0vis x hxV0)
    have IH := ih h1' h2' h3' h4' h5' h6' h7'
    rw [bfs_cons, ← hF]
    refine ⟨IH.1, IH.2.1, ?_, IH.2.2.2.1, IH.2.2.2.2.1, IH.2.2.2.2.2⟩
    intro x hx
    apply IH.2.2.1
    rcases List.mem_append.mp hx with h | h
    · exact List.mem_append.mpr (Or.inl (List.mem_append.mpr (Or.inl h)))
    · rcases List.mem_cons.mp h with h' | h'
      · exact List.mem_append.mpr (Or.inl (List.mem_append.mpr (Or.inr (by simp [h']))))
      · exact List.mem_append.mpr (Or.inr (List.mem_append.mpr (Or.inl h')))

/-- One bfs call of componentsLoop, seeded at an unvisited t with the
previously visited set V0. -/
theorem bfs_run (nbrs : String → List String) (univ : List String)
    (V0 : List String) (t : String) (ht : t ∉ V0) :
    (∀ x, x ∈ (ASR.bfs nbrs univ [t] (V0 ++ [t]) []).2 ↔
        x ∈ V0 ∨ x ∈ (ASR.bfs nbrs univ [t] (V0 ++ [t]) []).1)
    ∧ (ASR.bfs nbrs univ [t] (V0 ++ [t]) []).1.Nodup
    ∧ t ∈ (ASR.bfs nbrs univ [t] (V0 ++ [t]) []).1
    ∧ (∀ x ∈ (ASR.bfs nbrs univ [t] (V0 ++ [t]) []).1,
        Relation.ReflTransGen (fun a b => b ∈ nbrs a) t x)
    ∧ (∀ x ∈ (ASR.bfs nbrs univ [t] (V0 ++ [t]) []).1, ∀ y ∈ nbrs x, y ∈ univ →
        y ∈ (ASR.bfs nbrs univ [t] (V0 ++ [t]) []).2)
    ∧ (∀ x ∈ (ASR.bfs nbrs univ [t] (V0 ++ [t]) []).1, x ∉ V0) := by
  have h := bfs_master nbrs univ (Relation.ReflTransGen (fun a b => b ∈ nbrs a) t) V0
    (fun x y hx hy _ => hx.tail hy) [t] (V0 ++ [t]) []
    (by intro x hx; simp only [List.mem_singleton] at hx; simp [hx])
    (by intro x hx; simp at hx)
    (by intro x hx; simp at hx)
    (by simp)
    (by
      intro x
      constructor
      · intro hx
        rcases List.mem_append.mp hx with h | h
        · exact Or.inl h
        · exact Or.inr (Or.inr h)
      · intro hx
        rcases hx with h | h | h
        · exact List.mem_append.mpr (Or.inl h)
        · simp at h
        · exact List.mem_append.mpr (Or.inr h))
    (by
      intro x hx
      simp only [List.nil_append, List.mem_singleton] at hx
      subst hx
      exact Relation.ReflTransGen.refl)
    (by
      intro x hx
      simp only [List.nil_append, List.mem_singleton] at hx
      subst hx
      exact ht)
  exact ⟨h.1, h.2.1, h.2.2.1 t (by simp), h.2.2.2.1, h.2.2.2.2.1, h.2.2.2.2.2⟩

/-- Completeness of the seeded bfs: when the previously visited set is
closed under the (symmetric) adjacency, every vertex reachable from the
seed is collected. -/
theorem bfs_complete (nbrs : String → List String) (univ : List String)
    (hsym : ∀ x y, y ∈ nbrs x → x ∈ nbrs y)
    (hedge_univ : ∀ x y, y ∈ nbrs x → y ∈ univ)
    (V0 : List String) (t : String) (ht : t ∉ V0)
    (hV0closed : ∀ v ∈ V0, ∀ y ∈ nbrs v, y ∈ univ → y ∈ V0) :
    ∀ x, Relation.ReflTransGen (fun a b => b ∈ nbrs a) t x →
      x ∈ (ASR.bfs nbrs univ [t] (V0 ++ [t]) []).1 := by
  have h := bfs_run nbrs univ V0 t ht
  intro x hx
  induction hx with
  | refl => exact h.2.2.1
  | tail hr hstep ihx =>
    rename_i b c
    have hcW := h.2.2.2.2.1 b ihx c hstep (hedge_univ b c hstep)
    rcases (h.1 c).mp hcW with hV | hC
    · exfalso
      have hbV0 : b ∈ V0 :=
        hV0closed c hV b (hsym b c hstep) (hedge_univ c b (hsym b c hstep))
      exact h.2.2.2.2.2 b ihx hbV0
    · exact hC

/-- The connected-components loop: starting from consistent visited and
cluster state, it extends the clusters to cover every pending vertex,
each cluster being the full, sorted, duplicate-free reachability class
of one vertex, with distinct clusters disjoint. -/
theorem componentsLoop_spec (nbrs : String → List String) (univ : List String)
    (hsym : ∀ x y, y ∈ nbrs x → x ∈ nbrs y)
    (hedge_univ : ∀ x y, y ∈ nbrs x → y ∈ univ) :
    ∀ pending visited clusters,
    (∀ v ∈ visited, ∀ y ∈ nbrs v, y ∈ univ → y ∈ visited) →
    (∀ x, x ∈ visited ↔ ∃ c ∈ clusters, x ∈ c) →
    (∀ c ∈ clusters, ∃ s ∈ univ, ∀ x, x ∈ c ↔
        Relation.ReflTransGen (fun a b => b ∈ nbrs a) s x) →
    (∀ c ∈ clusters, c ≠ [] ∧ c.Nodup ∧ List.Sorted ASR.pyStrLe c) →
    clusters.Pairwise (fun c d => ∀ x ∈ c, x ∉ d) →
    (∀ t ∈ pending, t ∈ univ) →
    (∀ t ∈ pending, ∃ c ∈ ASR.componentsLoop nbrs univ pending visited clusters, t ∈ c)
    ∧ (∀ c ∈ clusters, c ∈ ASR.componentsLoop nbrs univ pending visited clusters)
    ∧ (∀ c ∈ ASR.componentsLoop nbrs univ pending visited clusters,
        ∃ s ∈ univ, ∀ x, x ∈ c ↔ Relation.ReflTransGen (fun a b => b ∈ nbrs a) s x)
    ∧ (∀ c ∈ ASR.componentsLoop nbrs univ pending visited clusters,
        c ≠ [] ∧ c.Nodup ∧ List.Sorted ASR.pyStrLe c)
    ∧ (ASR.componentsLoop nbrs univ pending visited clusters).Pairwise
        (fun c d => ∀ x ∈ c, x ∉ d) := by
  intro pending
  induction pending with
  | nil =>
    intro visited clusters hclosed hvis hclass hshape hdisj hsub
    rw [ASR.componentsLoop]
    exact ⟨by simp, fun c hc => hc, hclass, hshape, hdisj⟩
  | cons t ts ihp =>
    intro visited clusters hclosed hvis hclass hshape hdisj hsub
    rw [ASR.componentsLoop]
    by_cases hvt : t ∈ visited
    · rw [if_pos hvt]
      have hrec := ihp visited clusters hclosed hvis hclass hshape hdisj
        (fun u hu => hsub u (by simp [hu]))
      refine ⟨?_, hrec.2.1, hrec.2.2.1, hrec.2.2.2.1, hrec.2.2.2.2⟩
      intro u hu
      rcases List.mem_cons.mp hu with h | h
      · subst h
        obtain ⟨c, hc, hcmem⟩ := (hvis u).mp hvt
        exact ⟨c, hrec.2.1 c hc, hcmem⟩
      · exact hrec.1 u h
    · rw [if_neg hvt]
      have hrun := bfs_run nbrs univ visited t hvt
      have hcompl := bfs_complete nbrs univ hsym hedge_univ visited t hvt hclosed
      have hCchar : ∀ x, x ∈ (ASR.bfs nbrs univ [t] (visited ++ [t]) []).1 ↔
          Relation.ReflTransGen (fun a b => b ∈ nbrs a) t x :=
        fun x => ⟨fun h => hrun.2.2.2.1 x h, fun h => hcompl x h⟩
      have hSperm : ((ASR.bfs nbrs univ [t] (visited ++ [t]) []).1.insertionSort
            ASR.pyStrLe).Perm (ASR.bfs nbrs univ [t] (visited ++ [t]) []).1 :=
        List.perm_insertionSort _ _
      have hSmem := fun x => hSperm.mem_iff (a := x)
      have inv1 : ∀ v ∈ (ASR.bfs nbrs univ [t] (visited ++ [t]) []).2,
          ∀ y ∈ nbrs v, y ∈ univ → y ∈ (ASR.bfs nbrs univ [t] (visited ++ [t]) []).2 := by
        intro v hv y hy hyu
        rcases (hrun.1 v).mp hv with h | h
        · exact (hrun.1 y).mpr (Or.inl (hclosed v h y hy hyu))
        · exact hrun.2.2.2.2.1 v h y hy hyu
      have inv2 : ∀ x, x ∈ (ASR.bfs nbrs univ [t] (visited ++ [t]) []).2 ↔
          ∃ c ∈ clusters ++ [(ASR.bfs nbrs univ [t] (visited ++ [t]) []).1.insertionSort
            ASR.pyStrLe], x ∈ c := by
        intro x
        rw [hrun.1 x]
        constructor
        · intro hx
          rcases hx with h | h
          · obtain ⟨c, hc, hm⟩ := (hvis x).mp h
            exact ⟨c, by simp [hc], hm⟩
          · exact ⟨_, by simp, (hSmem x).mpr h⟩
        · rintro ⟨c, hc, hm⟩
          rcases List.mem_append.mp hc with h | h
          · exact Or.inl ((hvis x).mpr ⟨c, h, hm⟩)
          · simp only [List.mem_singleton] at h
            subst h
            exact Or.inr ((hSmem x).mp hm)
      have inv3 : ∀ c ∈ clusters ++ [(ASR.bfs nbrs univ [t] (visited ++ [t]) []).1.insertionSort
          ASR.pyStrLe], ∃ s ∈ univ, ∀ x, x ∈ c ↔
            Relation.ReflTransGen (fun a b => b ∈ nbrs a) s x := by
        intro c hc
        rcases List.mem_append.mp hc with h | h
        · exact hclass c h
        · simp only [List.mem_singleton] at h
          subst h
          exact ⟨t, hsub t (by simp), fun x => (hSmem x).trans (hCchar x)⟩
      have inv4 : ∀ c ∈ clusters ++ [(ASR.bfs nbrs univ [t] (visited ++ [t]) []).1.insertionSort
          ASR.pyStrLe], c ≠ [] ∧ c.Nodup ∧ List.Sorted ASR.pyStrLe c := by
        intro c hc
        rcases List.mem_append.mp hc with h | h
        · exact hshape c h
        · simp only [List.mem_singleton] at h
          subst h
          refine ⟨List.ne_nil_of_mem ((hSmem t).mpr hrun.2.2.1), ?_, ?_⟩
          · exact hSperm.nodup_iff.mpr hrun.2.1
          · exact List.sorted_insertionSort _ _
      have inv5 : (clusters ++ [(ASR.bfs nbrs univ [t] (visited ++ [t]) []).1.insertionSort
          ASR.pyStrLe]).Pairwise (fun c d => ∀ x ∈ c, x ∉ d) := by
        rw [List.pairwise_append]
        refine ⟨hdisj, by simp, ?_⟩
        intro c hc d hd
        simp only [List.mem_singleton] at hd
        subst hd
        intro x hx hxS
        exact hrun.2.2.2.2.2 x ((hSmem x).mp hxS) ((hvis x).mpr ⟨c, hc, hx⟩)
      have hrec := ihp (ASR.bfs nbrs univ [t] (visited ++ [t]) []).2
        (clusters ++ [(ASR.bfs nbrs univ [t] (visited ++ [t]) []).1.insertionSort
          ASR.pyStrLe]) inv1 inv2 inv3 inv4 inv5 (fun u hu => hsub u (by simp [hu]))
      refine ⟨?_, ?_, hrec.2.2.1, hrec.2.2.2.1, hrec.2.2.2.2⟩
      · intro u hu
        rcases List.mem_cons.mp hu with h | h
        · subst h
          exact ⟨_, hrec.2.1 _ (by simp), (hSmem u).mpr hrun.2.2.1⟩
        · exact hrec.1 u h
      · intro c hc
        exact hrec.2.1 c (by simp [hc])

/-- A successful association-list lookup exhibits a member pair. -/
theorem lookup_some_mem {β : Type} (a : String) (b : β) :
    ∀ l : List (String × β), l.lookup a = some b → (a, b) ∈ l := by
  intro l
  induction l with
  | nil => intro h; simp [List.lookup] at h
  | cons p ps ih =>
    intro h
    obtain ⟨k, v⟩ := p
    rw [List.lookup] at h
    cases hak : (a == k) with
    | true =>
      rw [hak] at h
      simp only [Option.some.injEq] at h
      have hk : a = k := by simpa using hak
      subst hk
      subst h
      exact List.mem_cons_self _ _
    | false =>
      rw [hak] at h
      exact List.mem_cons_of_mem _ (ih h)

/-- A theme whose vector lookup is non-empty is one of the dict keys. -/
theorem mem_themes_of_vec_nonempty (V : List (String × ASR.Vec)) (t : String)
    (h : ¬ (ASR.vecOf V t).length = 0) : t ∈ ASR.themes V := by
  unfold ASR.vecOf at h
  cases hl : List.lookup t V with
  | none => rw [hl] at h; simp at h
  | some v =>
    exact List.mem_map.mpr ⟨(t, v), lookup_some_mem t v V hl, rfl⟩

/-- Zipping a list with itself duplicates each entry. -/
theorem zip_self_eq (l : List ℚ) : l.zip l = l.map fun x => (x, x) := by
  induction l with
  | nil => rfl
  | cons x xs ih => simp [List.zip_cons_cons, ih]

/-- The self-covariance sum is the sum of squared deviations. -/
theorem covSum_self_eq (a : ASR.Vec) :
    ASR.covSum a a = (a.map fun x => (x - qmean a) ^ 2).sum := by
  unfold ASR.covSum
  rw [zip_self_eq a, List.map_map]
  have hfun : ((fun p : ℚ × ℚ => (p.1 - qmean a) * (p.2 - qmean a)) ∘ fun x => (x, x))
      = fun x => (x - qmean a) ^ 2 := by
    funext x
    simp [sq]
  rw [hfun]

/-- An entry off the mean makes the self-covariance sum positive. -/
theorem covSum_self_pos (a : ASR.Vec) (x : ℚ) (hx : x ∈ a) (hne : x ≠ qmean a) :
    0 < ASR.covSum a a := by
  rw [covSum_self_eq]
  have hmem : (x - qmean a) ^ 2 ∈ a.map fun y => (y - qmean a) ^ 2 :=
    List.mem_map.mpr ⟨x, hx, rfl⟩
  have hnn : ∀ z ∈ a.map fun y => (y - qmean a) ^ 2, (0 : ℚ) ≤ z := by
    intro z hz
    obtain ⟨y, _, rfl⟩ := List.mem_map.mp hz
    positivity
  have hpos : 0 < (x - qmean a) ^ 2 :=
    pow_two_pos_of_ne_zero (sub_ne_zero.mpr hne)
  exact lt_of_lt_of_le hpos (List.single_le_sum hnn _ hmem)

/-- A vector failing the allclose-constant test has positive
self-covariance sum (its variance numerator). -/
theorem var_pos_of_not_allclose (a : ASR.Vec) (h : ASR.allcloseConst a = false) :
    0 < ASR.covSum a a := by
  unfold ASR.allcloseConst at h
  rw [List.all_eq_false] at h
  obtain ⟨x, hx, hnot⟩ := h
  rw [decide_eq_true_eq] at hnot
  have hne : x ≠ qmean a := by
    intro he
    apply hnot
    rw [he, sub_self, abs_zero]
    positivity
  exact covSum_self_pos a x hx hne

/-- The covariance sum is symmetric. -/
theorem covSum_comm (a b : ASR.Vec) : ASR.covSum a b = ASR.covSum b a := by
  unfold ASR.covSum
  rw [← List.zip_swap a b, List.map_map]
  have hfun : ((fun p : ℚ × ℚ => (p.1 - qmean b) * (p.2 - qmean a)) ∘ Prod.swap)
      = fun p : ℚ × ℚ => (p.1 - qmean a) * (p.2 - qmean b) := by
    funext p
    simp [Prod.swap, mul_comm]
  rw [hfun]

/-- Pearson correlation is symmetric. -/
theorem pearson_comm (a b : ASR.Vec) : ASR.pearson a b = ASR.pearson b a := by
  unfold ASR.pearson
  rw [covSum_comm a b, mul_comm]

/-- The correlation value of pairwise_correlations is symmetric. -/
theorem codeCorr_comm (a b : ASR.Vec) : ASR.codeCorr a b = ASR.codeCorr b a := by
  unfold ASR.codeCorr
  by_cases h1 : a.length = 0 ∨ b.length = 0
  · rw [if_pos h1, if_pos h1.symm]
  · rw [if_neg h1,
      if_neg (show ¬(b.length = 0 ∨ a.length = 0) from fun hc => h1 hc.symm)]
    by_cases h2 : ASR.allcloseConst a = true ∨ ASR.allcloseConst b = true
    · rw [if_pos h2, if_pos h2.symm]
    · rw [if_neg h2,
        if_neg (show ¬(ASR.allcloseConst b = true ∨ ASR.allcloseConst a = true) from
          fun hc => h2 hc.symm)]
      exact pearson_comm a b

/-- Jaccard similarity is symmetric. -/
theorem jaccard_comm (a b : Finset String) : ASR.jaccard a b = ASR.jaccard b a := by
  unfold ASR.jaccard
  by_cases h1 : a = ∅ <;> by_cases h2 : b = ∅ <;>
    simp [h1, h2, Finset.inter_comm, Finset.union_comm]

/-- Square-free decision of a threshold on a quotient by a product of
square roots, for positive threshold and positive radicands. -/
theorem sq_decision_iff (t C A B : ℝ) (ht : 0 < t) (hA : 0 < A) (hB : 0 < B) :
    (0 < C ∧ t ^ 2 * (A * B) ≤ C ^ 2) ↔ t ≤ C / (Real.sqrt A * Real.sqrt B) := by
  have hD : 0 < Real.sqrt A * Real.sqrt B :=
    mul_pos (Real.sqrt_pos.mpr hA) (Real.sqrt_pos.mpr hB)
  rw [le_div_iff hD]
  have hsq : (t * (Real.sqrt A * Real.sqrt B)) ^ 2 = t ^ 2 * (A * B) := by
    rw [mul_pow, mul_pow, Real.sq_sqrt hA.le, Real.sq_sqrt hB.le]
  constructor
  · rintro ⟨hC, hle⟩
    have h0 : 0 ≤ t * (Real.sqrt A * Real.sqrt B) := (mul_pos ht hD).le
    exact (pow_le_pow_iff_left h0 hC.le (by norm_num : (2 : ℕ) ≠ 0)).mp
      (by rw [hsq]; exact hle)
  · intro hle
    have h0 : 0 < t * (Real.sqrt A * Real.sqrt B) := mul_pos ht hD
    refine ⟨lt_of_lt_of_le h0 hle, ?_⟩
    rw [← hsq]
    exact pow_le_pow_left h0.le hle 2

/-- The boolean correlation-threshold decision of the embedding agrees
with the real comparison against the correlation value of
pairwise_correlations, for any positive threshold. -/
theorem corrGe_iff_codeCorr (a b : ASR.Vec) (t : ℚ) (ht : 0 < t) :
    ASR.corrGe a b t = true ↔ (t : ℝ) ≤ ASR.codeCorr a b := by
  unfold ASR.corrGe ASR.codeCorr
  by_cases h1 : a.length = 0 ∨ b.length = 0
  · rw [if_pos h1, if_pos h1, decide_eq_true_eq]
    constructor
    · intro h; exact absurd h (not_le.mpr ht)
    · intro h
      have ht' : (0 : ℝ) < (t : ℝ) := by exact_mod_cast ht
      exact absurd h (not_le.mpr ht')
  · rw [if_neg h1, if_neg h1]
    by_cases h2 : ASR.allcloseConst a = true ∨ ASR.allcloseConst b = true
    · rw [if_pos h2, if_pos h2, decide_eq_true_eq]
      constructor
      · intro h; exact absurd h (not_le.mpr ht)
      · intro h
        have ht' : (0 : ℝ) < (t : ℝ) := by exact_mod_cast ht
        exact absurd h (not_le.mpr ht')
    · rw [if_neg h2, if_neg h2]
      have ha : ASR.allcloseConst a = false := by
        cases h : ASR.allcloseConst a
        · rfl
        · exact absurd (Or.inl h) h2
      have hb : ASR.allcloseConst b = false := by
        cases h : ASR.allcloseConst b
        · rfl
        · exact absurd (Or.inr h) h2
      have hva : 0 < ASR.covSum a a := var_pos_of_not_allclose a ha
      have hvb : 0 < ASR.covSum b b := var_pos_of_not_allclose b hb
      have key := sq_decision_iff (t : ℝ) ((ASR.covSum a b : ℚ) : ℝ)
        ((ASR.covSum a a : ℚ) : ℝ) ((ASR.covSum b b : ℚ) : ℝ)
        (by exact_mod_cast ht) (by exact_mod_cast hva) (by exact_mod_cast hvb)
      unfold ASR.pearson
      rw [decide_eq_true_eq, ← key]
      constructor
      · intro h
        exact ⟨by exact_mod_cast h.1, by exact_mod_cast h.2⟩
      · intro h
        exact ⟨by exact_mod_cast h.1, by exact_mod_cast h.2⟩

/-- Membership in the adjacency list built by build_clusters coincides
with the claimed edge relation under the allclose-constant convention:
distinct themes with correlation value at least 0.5 and Jaccard at
least 0.15. -/
theorem adj_iff_codeEdge (V : List (String × ASR.Vec))
    (G : List (String × Finset String)) (t u : String) :
    u ∈ ASR.adj V G (1/2) (3/20) t ↔ ASR.codeEdge V G t u := by
  unfold ASR.adj ASR.codeEdge
  rw [List.mem_filter]
  constructor
  · rintro ⟨hu, hcond⟩
    rw [Bool.and_eq_true, decide_eq_true_eq] at hcond
    obtain ⟨hne, hedge⟩ := hcond
    unfold ASR.edgeB at hedge
    rw [Bool.and_eq_true, decide_eq_true_eq] at hedge
    obtain ⟨hcg, hjac⟩ := hedge
    have hlen : ¬((ASR.vecOf V t).length = 0 ∨ (ASR.vecOf V u).length = 0) := by
      intro hcon
      unfold ASR.corrGe at hcg
      rw [if_pos hcon, decide_eq_true_eq] at hcg
      norm_num at hcg
    have ht : t ∈ ASR.themes V :=
      mem_themes_of_vec_nonempty V t (fun hc => hlen (Or.inl hc))
    have hcorr : ((1 / 2 : ℚ) : ℝ) ≤ ASR.codeCorr (ASR.vecOf V t) (ASR.vecOf V u) :=
      (corrGe_iff_codeCorr _ _ _ (by norm_num)).mp hcg
    refine ⟨ht, hu, hne.symm, ?_, hjac⟩
    push_cast at hcorr
    exact hcorr
  · rintro ⟨ht, hu, hne, hcorr, hjac⟩
    refine ⟨hu, ?_⟩
    rw [Bool.and_eq_true, decide_eq_true_eq]
    refine ⟨hne.symm, ?_⟩
    unfold ASR.edgeB
    rw [Bool.and_eq_true, decide_eq_true_eq]
    refine ⟨?_, hjac⟩
    apply (corrGe_iff_codeCorr _ _ _ (by norm_num)).mpr
    push_cast
    exact hcorr

/-- The code's edge relation is symmetric. -/
theorem codeEdge_symm (V : List (String × ASR.Vec))
    (G : List (String × Finset String)) {a b : String}
    (h : ASR.codeEdge V G a b) : ASR.codeEdge V G b a :=
  ⟨h.2.1, h.1, h.2.2.1.symm, by rw [codeCorr_comm]; exact h.2.2.2.1,
    by rw [jaccard_comm]; exact h.2.2.2.2⟩

/-- The adjacency lists of build_clusters are symmetric. -/
theorem adj_symm (V : List (String × ASR.Vec))
    (G : List (String × Finset String)) :
    ∀ x y, y ∈ ASR.adj V G (1/2) (3/20) x → x ∈ ASR.adj V G (1/2) (3/20) y :=
  fun x y h =>
    (adj_iff_codeEdge V G y x).mpr (codeEdge_symm V G ((adj_iff_codeEdge V G x y).mp h))

/-- Every adjacency-list entry is a theme. -/
theorem adj_subset_themes (V : List (String × ASR.Vec))
    (G : List (String × Finset String)) :
    ∀ x y, y ∈ ASR.adj V G (1/2) (3/20) x → y ∈ ASR.themes V :=
  fun _ y h => ((adj_iff_codeEdge V G _ y).mp h).2.1

/-- Reachability along adjacency lists stays inside the theme list. -/
theorem reach_mem_themes (V : List (String × ASR.Vec))
    (G : List (String × Finset String)) (s : String) (hs : s ∈ ASR.themes V) :
    ∀ x, Relation.ReflTransGen (fun a b => b ∈ ASR.adj V G (1/2) (3/20) a) s x →
      x ∈ ASR.themes V := by
  intro x hx
  induction hx with
  | refl => exact hs
  | tail hr hstep ih => exact adj_subset_themes V G _ _ hstep

/-- Reachability along the adjacency lists coincides with reachability
along the code's edge relation. -/
theorem reach_adj_iff_codeEdge (V : List (String × ASR.Vec))
    (G : List (String × Finset String)) (s : String) :
    ∀ x, Relation.ReflTransGen (fun a b => b ∈ ASR.adj V G (1/2) (3/20) a) s x ↔
      Relation.ReflTransGen (ASR.codeEdge V G) s x := by
  intro x
  constructor
  · intro h
    induction h with
    | refl => exact Relation.ReflTransGen.refl
    | tail hr hstep ih => exact ih.tail ((adj_iff_codeEdge V G _ _).mp hstep)
  · intro h
    induction h with
    | refl => exact Relation.ReflTransGen.refl
    | tail hr hstep ih => exact ih.tail ((adj_iff_codeEdge V G _ _).mpr hstep)

/-- Unfolding equation of build_clusters. -/
theorem build_clusters_eq (V : List (String × ASR.Vec))
    (G : List (String × Finset String)) (ct jt : ℚ) :
    ASR.build_clusters V G ct jt =
      if (ASR.themes V).isEmpty then []
      else (ASR.componentsLoop (ASR.adj V G ct jt) (ASR.themes V)
        (ASR.themes V) [] []).insertionSort ASR.clusterLe := rfl

/-- The combined structural description of build_clusters at the
thresholds of the report: coverage of the themes, reachability classes,
cluster shape, pairwise disjointness, and the final cluster order. -/
theorem build_clusters_spec (V : List (String × ASR.Vec))
    (G : List (String × Finset String)) :
    (∀ t ∈ ASR.themes V, ∃ c ∈ ASR.build_clusters V G (1/2) (3/20), t ∈ c)
    ∧ (∀ c ∈ ASR.build_clusters V G (1/2) (3/20),
        ∃ s ∈ ASR.themes V, ∀ x, x ∈ c ↔
          Relation.ReflTransGen (fun a b => b ∈ ASR.adj V G (1/2) (3/20) a) s x)
    ∧ (∀ c ∈ ASR.build_clusters V G (1/2) (3/20),
        c ≠ [] ∧ c.Nodup ∧ List.Sorted ASR.pyStrLe c)
    ∧ (ASR.build_clusters V G (1/2) (3/20)).Pairwise (fun c d => ∀ x ∈ c, x ∉ d)
    ∧ List.Sorted ASR.clusterLe (ASR.build_clusters V G (1/2) (3/20)) := by
  rw [build_clusters_eq]
  by_cases hemp : (ASR.themes V).isEmpty
  · rw [if_pos hemp]
    rw [List.isEmpty_iff] at hemp
    refine ⟨?_, by simp, by simp, by simp, List.sorted_nil⟩
    intro t ht
    rw [hemp] at ht
    simp at ht
  · rw [if_neg hemp]
    have hspec := componentsLoop_spec (ASR.adj V G (1/2) (3/20)) (ASR.themes V)
      (adj_symm V G) (adj_subset_themes V G) (ASR.themes V) [] []
      (by intro v hv; simp at hv)
      (by intro x; simp)
      (by intro c hc; simp at hc)
      (by intro c hc; simp at hc)
      (by simp)
      (fun t ht => ht)
    have hperm := List.perm_insertionSort ASR.clusterLe
      (ASR.componentsLoop (ASR.adj V G (1/2) (3/20)) (ASR.themes V) (ASR.themes V) [] [])
    have hsymm : ∀ {c d : List String}, (∀ x ∈ c, x ∉ d) → ∀ x ∈ d, x ∉ c :=
      fun h x hxd hxc => h x hxc hxd
    refine ⟨?_, ?_, ?_, ?_, List.sorted_insertionSort _ _⟩
    · intro t ht
      obtain ⟨c, hc, hm⟩ := hspec.1 t ht
      exact ⟨c, hperm.mem_iff.mpr hc, hm⟩
    · intro c hc
      exact hspec.2.2.1 c (hperm.mem_iff.mp hc)
    · intro c hc
      exact hspec.2.2.2.1 c (hperm.mem_iff.mp hc)
    · exact (List.Perm.pairwise_iff hsymm hperm).mpr hspec.2.2.2.2

/-- C8: build_clusters always returns a partition of the theme set:
every theme lies in some cluster, distinct clusters are disjoint and
each cluster duplicate-free (so each theme appears in exactly one
cluster, once), no cluster is empty, each cluster's members are sorted
lexicographically and drawn from the themes, and the cluster list is
ordered by decreasing size with ties broken by the lowercased member
lists. -/
theorem C8_build_clusters_partition (V : List (String × ASR.Vec))
    (G : List (String × Finset String)) :
    (∀ t ∈ ASR.themes V, ∃ c ∈ ASR.build_clusters V G (1/2) (3/20), t ∈ c)
    ∧ (ASR.build_clusters V G (1/2) (3/20)).Pairwise (fun c d => ∀ x ∈ c, x ∉ d)
    ∧ (∀ c ∈ ASR.build_clusters V G (1/2) (3/20),
        c ≠ [] ∧ c.Nodup ∧ List.Sorted ASR.pyStrLe c ∧ ∀ x ∈ c, x ∈ ASR.themes V)
    ∧ List.Sorted ASR.clusterLe (ASR.build_clusters V G (1/2) (3/20)) := by
  have h := build_clusters_spec V G
  refine ⟨h.1, h.2.2.2.1, ?_, h.2.2.2.2⟩
  intro c hc
  obtain ⟨hne, hnd, hsort⟩ := h.2.2.1 c hc
  obtain ⟨s, hs, hchar⟩ := h.2.1 c hc
  exact ⟨hne, hnd, hsort, fun x hx => reach_mem_themes V G s hs x ((hchar x).mp hx)⟩

/-- Closed instance of the C8 partition property at a concrete input. -/
theorem C8_build_clusters_partition_witness :
    "a" ∈ ASR.themes [("b", ([0] : ASR.Vec)), ("a", [0])]
    ∧ ∃ c ∈ ASR.build_clusters [("b", ([0] : ASR.Vec)), ("a", [0])] [] (1/2) (3/20),
        "a" ∈ c :=
  ⟨by simp [ASR.themes],
    (C8_build_clusters_partition [("b", [0]), ("a", [0])] []).1 "a" (by simp [ASR.themes])⟩

/-- The mean of the counterexample vector. -/
theorem exVec_mean : qmean exVec = 53000000001 / 53000000000 := by
  have hsum : exVec.sum = 53000000001 / 1000000000 := by
    unfold exVec
    rw [List.sum_cons, List.sum_replicate]
    norm_num [nsmul_eq_mul]
  have hlen : exVec.length = 53 := by simp [exVec]
  unfold qmean
  rw [hsum, hlen]
  norm_num

/-- numpy allclose deems the counterexample vector constant. -/
theorem exVec_allclose : ASR.allcloseConst exVec = true := by
  unfold ASR.allcloseConst
  rw [List.all_eq_true]
  intro x hx
  rw [decide_eq_true_eq, exVec_mean]
  rw [show exVec = (1 + 1 / 1000000000) :: List.replicate 52 (1 : ℚ) from rfl] at hx
  rcases List.mem_cons.mp hx with h | h
  · subst h
    have h1 : (1 + 1 / 1000000000 : ℚ) - 53000000001 / 53000000000
        = 52 / 53000000000 := by norm_num
    rw [h1, abs_of_pos (by norm_num), abs_of_pos (by norm_num)]
    norm_num
  · have hx1 : x = 1 := List.eq_of_mem_replicate h
    subst hx1
    have h1 : (1 : ℚ) - 53000000001 / 53000000000 = -(1 / 53000000000) := by norm_num
    rw [h1, abs_neg, abs_of_pos (by norm_num), abs_of_pos (by norm_num)]
    norm_num

/-- The code therefore rejects the correlation edge on the
counterexample vector. -/
theorem exVec_corrGe_false : ASR.corrGe exVec exVec (1/2) = false := by
  unfold ASR.corrGe
  have hlen : ¬(exVec.length = 0 ∨ exVec.length = 0) := by simp [exVec]
  rw [if_neg hlen, if_pos (Or.inl exVec_allclose :
    ASR.allcloseConst exVec = true ∨ ASR.allcloseConst exVec = true)]
  exact decide_eq_false (by norm_num)

/-- Every vector lookup in the counterexample is empty or exVec. -/
theorem exV_vecOf (t : String) :
    ASR.vecOf exV t = [] ∨ ASR.vecOf exV t = exVec := by
  unfold ASR.vecOf
  cases hl : List.lookup t exV with
  | none => exact Or.inl rfl
  | some v =>
    have hmem := lookup_some_mem t v exV hl
    simp only [exV, List.mem_cons, List.not_mem_nil, or_false, Prod.mk.injEq] at hmem
    rcases hmem with ⟨-, rfl⟩ | ⟨-, rfl⟩ <;> exact Or.inr rfl

/-- No pair of themes passes the edge test of the counterexample. -/
theorem exV_edgeB_false (t u : String) :
    ASR.edgeB exV exG (1/2) (3/20) t u = false := by
  unfold ASR.edgeB
  have hcf : ASR.corrGe (ASR.vecOf exV t) (ASR.vecOf exV u) (1/2) = false := by
    rcases exV_vecOf t with hv | hv <;> rcases exV_vecOf u with hw | hw <;> rw [hv, hw]
    · unfold ASR.corrGe
      rw [if_pos (Or.inl rfl : ([] : ASR.Vec).length = 0 ∨ ([] : ASR.Vec).length = 0)]
      exact decide_eq_false (by norm_num)
    · unfold ASR.corrGe
      rw [if_pos (Or.inl rfl : ([] : ASR.Vec).length = 0 ∨ exVec.length = 0)]
      exact decide_eq_false (by norm_num)
    · unfold ASR.corrGe
      rw [if_pos (Or.inr rfl : exVec.length = 0 ∨ ([] : ASR.Vec).length = 0)]
      exact decide_eq_false (by norm_num)
    · exact exVec_corrGe_false
  rw [hcf, Bool.false_and]

/-- All adjacency lists of the counterexample are empty. -/
theorem exV_adj_nil (t : String) : ASR.adj exV exG (1/2) (3/20) t = [] := by
  unfold ASR.adj
  apply List.filter_eq_nil_iff.mpr
  intro u hu
  rw [exV_edgeB_false t u, Bool.and_false]
  simp

/-- The counterexample clustering puts the two themes apart. -/
theorem exV_build_clusters :
    ASR.build_clusters exV exG (1/2) (3/20) = [["A"], ["B"]] := by
  have hb : ∀ t vis comp, ASR.bfs (ASR.adj exV exG (1/2) (3/20)) ["A", "B"]
      [t] vis comp = (comp ++ [t], vis) := by
    intro t vis comp
    rw [bfs_cons, exV_adj_nil t]
    simp only [List.filter_nil, List.dedup_nil, List.append_nil, List.nil_append]
    rw [bfs_nil]
  have hthemes : ASR.themes exV = ["A", "B"] := rfl
  rw [build_clusters_eq, hthemes]
  rw [if_neg (by decide : ¬(["A", "B"] : List String).isEmpty = true)]
  rw [ASR.componentsLoop]
  rw [if_neg (by decide : ¬("A" ∈ ([] : List String)))]
  simp only [List.nil_append]
  rw [hb "A" ["A"] []]
  simp only [List.nil_append]
  rw [ASR.componentsLoop]
  rw [if_neg (by decide : ¬("B" ∈ (["A"] : List String)))]
  rw [hb "B" (["A"] ++ ["B"]) []]
  simp only [List.nil_append]
  rw [ASR.componentsLoop]
  have hs1 : List.insertionSort ASR.pyStrLe ["A"] = ["A"] := rfl
  have hs2 : List.insertionSort ASR.pyStrLe ["B"] = ["B"] := rfl
  rw [hs1, hs2]
  have hsorted : List.Sorted ASR.clusterLe [["A"], ["B"]] := by
    refine List.sorted_cons.mpr ⟨?_, List.sorted_singleton _⟩
    intro b hb
    rw [List.mem_singleton] at hb
    subst hb
    exact Or.inr ⟨rfl, by decide⟩
  exact List.Sorted.insertionSort_eq hsorted

/-- The counterexample vector is not exactly constant, so its
self-covariance sum is positive. -/
theorem exVec_var_pos : 0 < ASR.covSum exVec exVec := by
  refine covSum_self_pos exVec (1 + 1 / 1000000000) ?_ ?_
  · exact List.mem_cons_self _ _
  · rw [exVec_mean]
    norm_num

/-- Pearson self-correlation of the counterexample vector is 1. -/
theorem exVec_pearson : ASR.pearson exVec exVec = 1 := by
  unfold ASR.pearson
  rw [Real.mul_self_sqrt (by exact_mod_cast exVec_var_pos.le)]
  rw [div_self]
  exact_mod_cast exVec_var_pos.ne'

/-- The claim's correlation value on the counterexample vector: the
vector is not exactly constant, so no zeroing applies and the value is
the Pearson coefficient, 1. -/
theorem exVec_claimCorr : ASR.claimCorr exVec exVec = 1 := by
  have hnc : ¬ ASR.isConstVec exVec := by
    intro h
    have h1 := h (1 + 1 / 1000000000) (List.mem_cons_self _ _) 1
      (List.mem_cons_of_mem _ (List.mem_replicate.mpr ⟨by norm_num, rfl⟩))
    norm_num at h1
  unfold ASR.claimCorr
  rw [if_neg (by simp [exVec]), if_neg (fun h => hnc (h.elim id id)), exVec_pearson]

/-- The two themes of the counterexample are adjacent under the claimed
edge relation. -/
theorem exV_claimEdge : ASR.claimEdge exV exG "A" "B" := by
  have hjac : ASR.jaccard {"X"} {"X"} = 1 := by
    unfold ASR.jaccard
    rw [if_neg (by simp), if_neg (by simp)]
    norm_num [Finset.inter_self, Finset.union_self]
  refine ⟨by decide, by decide, by decide, ?_, ?_⟩
  · rw [show ASR.vecOf exV "A" = exVec from rfl, show ASR.vecOf exV "B" = exVec from rfl,
      exVec_claimCorr]
    norm_num
  · rw [show ASR.geoOf exG "A" = {"X"} from rfl, show ASR.geoOf exG "B" = {"X"} from rfl,
      hjac]
    norm_num

/-- C1 counterexample: on two themes sharing a near-constant (but not
exactly constant) 53-entry vector and identical DMA sets, the claimed
edge relation (correlation zeroed only for empty or exactly constant
vectors) joins them, but build_clusters returns the two singleton
clusters because pairwise_correlations zeroes the correlation via the
numpy allclose tolerance 1e-8 + 1e-5 * |mean|; the output is therefore
not the connected components of the claimed graph. -/
theorem C1_counterexample :
    ¬ ASR.IsComponentsOf (ASR.claimEdge exV exG) (ASR.themes exV)
        (ASR.build_clusters exV exG (1/2) (3/20)) := by
  intro hic
  obtain ⟨-, hcls⟩ := hic
  rw [exV_build_clusters] at hcls
  obtain ⟨s, hs, hchar⟩ := hcls ["A"] (by simp)
  have hsA : s = "A" := by
    have hmem := (hchar s).mpr Relation.ReflTransGen.refl
    rw [List.mem_singleton] at hmem
    exact hmem
  subst hsA
  have hB : "B" ∈ ["A"] := (hchar "B").mpr (Relation.ReflTransGen.single exV_claimEdge)
  rw [List.mem_singleton] at hB
  exact (by decide : ("B" : String) ≠ "A") hB

/-- C1 (amended): build_clusters returns exactly the connected
components of the graph on the themes whose edges require Pearson
correlation at least 0.5 and Jaccard similarity at least 0.15, with the
correlation taken as 0.0 when either vector is empty or when numpy
allclose deems it constant (within 1e-8 + 1e-5 * |mean| of its mean). -/
theorem C1_build_clusters_components (V : List (String × ASR.Vec))
    (G : List (String × Finset String)) :
    ASR.IsComponentsOf (ASR.codeEdge V G) (ASR.themes V)
      (ASR.build_clusters V G (1/2) (3/20)) := by
  have h := build_clusters_spec V G
  refine ⟨h.1, ?_⟩
  intro c hc
  obtain ⟨s, hs, hchar⟩ := h.2.1 c hc
  exact ⟨s, hs, fun x => (hchar x).trans (reach_adj_iff_codeEdge V G s x)⟩

/-- Closed instance of the amended C1 property at a concrete input. -/
theorem C1_build_clusters_components_witness :
    "x" ∈ ASR.themes [("x", ([2] : ASR.Vec)), ("y", [2])]
    ∧ ∃ c ∈ ASR.build_clusters [("x", ([2] : ASR.Vec)), ("y", [2])] [] (1/2) (3/20),
        "x" ∈ c :=
  ⟨by simp [ASR.themes],
    (C1_build_clusters_components [("x", [2]), ("y", [2])] []).1 "x" (by simp [ASR.themes])⟩
